import Mathlib

/-!
Shallow embedding of the WNTR thermal simulator (src/wntr/sim/thermal.py) and of
the pipe-subdivision utility meshnet, together with theorems checking the
natural-language specification against it.

Numeric conventions: all floating-point quantities are modelled as rationals.
The transcendental pieces of the thermal-resistance formula (np.arccosh, np.pi)
cannot live in the rationals, so the simulator carries them as explicit function
and constant parameters; no claim below depends on their values.  An infinite
aggregate pipe resistance (np.inf in the source, whose reciprocal is 0) is
represented by the rational 0, whose reciprocal in Lean is likewise 0.
-/

namespace WNTRThermal

/-- Matrices are total functions from row and column indices to rationals; only
indices below the declared size 2N are meaningful. -/
abbrev Mat := ℕ → ℕ → ℚ

/-- Vectors are total functions from an index to a rational. -/
abbrev Vec := ℕ → ℚ

/-- Single-entry matrix assignment, as in a numpy scalar store C[r, c] = v. -/
def updM (M : Mat) (r c : ℕ) (v : ℚ) : Mat :=
  fun i j => if i = r ∧ j = c then v else M i j

/-- Single-entry vector assignment b[i] = v. -/
def updV (b : Vec) (i : ℕ) (v : ℚ) : Vec :=
  fun j => if j = i then v else b j

/-- The np.sign function on rationals. -/
def qsign (q : ℚ) : ℚ :=
  if 0 < q then 1 else if q < 0 then -1 else 0

/-- C-style cast of a double to int64: truncation toward zero. -/
def truncQ (q : ℚ) : ℤ :=
  if 0 ≤ q then ⌊q⌋ else -⌊-q⌋

/-- TimeData (thermal.py lines 16-29).  The stamp array is
np.arange(0, duration + timestep, timestep, dtype='int64'); with an explicit
integer dtype numpy computes the length as ceil((stop - start) / step) from the
float arguments, casts the first two elements to the dtype and fills the rest by
repeated addition of their difference, so with start = 0 the i-th stamp is
i * int64(timestep). -/
structure TimeData where
  step : ℚ
  duration : ℚ
  stamps : ℕ → ℤ
  stampsNum : ℕ

/-- Constructor of TimeData, embedding TimeData.__init__. -/
def TimeData.init (timestep duration : ℚ) : TimeData :=
  { step := timestep
    duration := duration
    stamps := fun i => (i : ℤ) * truncQ timestep
    stampsNum := (⌈(duration + timestep) / timestep⌉).toNat }

/-- The index sequence stamps_idx = np.arange(stamps_num). -/
def TimeData.stampsIdx (td : TimeData) : List ℕ := List.range td.stampsNum

/-- Time-varying soil properties of a node (accessors of node._soil_props). -/
structure SoilProps where
  temperatureAt : ℚ → ℚ
  thermalConductivityAt : ℚ → ℚ
  volumetricHeatCapacityAt : ℚ → ℚ
  absorptivityAt : ℚ → ℚ

/-- The weather collaborator (wntr.network.elements.Weather accessors used by
the thermal model). -/
structure Weather where
  airTemperatureAt : ℚ → ℚ
  soilTemperatureAt : ℚ → ℚ
  globalSolarRadiationAt : ℚ → ℚ
  convectiveHeatTransferCoefAt : ℚ → ℚ
  depthOfSoilTemperatureDevice : ℚ

/-- One connection of a node.  The Python node keeps three aligned arrays
(connected_links_ids, neighbour_nodes_ids, connection_side); here the arrays
are transposed into one record per connection. -/
structure Conn where
  link : ℕ
  node : ℕ
  side : ℤ

/-- The static per-node data the thermal model reads from the network model,
after _assign_ids_to_nodes_and_links has resolved names to dense ids. -/
structure NodeData where
  name : String
  waterVolume : ℚ
  soilVolume : ℚ
  totalThermalResistance : ℚ
  undergroundDepth : ℚ
  soilAirInterfaceArea : ℚ
  soilArea : ℚ
  soilOuterDiameter : ℚ
  soilLength : ℚ
  initialTemperature : ℚ
  temperatureAt : ℚ → ℚ
  getVolume : ℚ → ℚ
  initLevel : ℚ
  elevation : ℚ
  soilProps : SoilProps
  connections : List Conn
  thermalBC : String

/-- The hydraulic simulation results the thermal model consumes: flowrate per
[time, link], demand and leak_demand per [time, node], head per [time, node]. -/
structure HydraulicResults where
  flowrate : ℕ → ℕ → ℚ
  demand : ℕ → ℕ → ℚ
  leakDemand : ℕ → ℕ → ℚ
  head : ℕ → ℕ → ℚ

/-- HydraulicData (thermal.py lines 45-51): the extracted arrays. -/
structure HydraulicData where
  flowVal : ℕ → ℕ → ℚ
  flowDir : ℕ → ℕ → ℚ
  demands : ℕ → ℕ → ℚ
  tanksLevels : ℕ → ℕ → ℚ

/-- The fields of the water network model that ThermalSimulator.__init__ reads.
Node lists are given in result-column order: junctions, tanks, reservoirs. -/
structure WNInput where
  junctions : List NodeData
  tanks : List NodeData
  reservoirs : List NodeData
  hydraulicTimestep : ℚ
  duration : ℚ
  specificGravity : ℚ
  heatCapacity : ℚ
  arccoshQ : ℚ → ℚ
  piQ : ℚ

/-- The extraction _extract_relevant_hydraulic_data (thermal.py lines 143-149):
flow magnitudes, flow signs, demand plus leak demand, and tank levels
(head minus elevation, tank k sitting at node id numJunctions + k). -/
def extractRelevantHydraulicData (numJunctions : ℕ) (tanks : List NodeData)
    (r : HydraulicResults) : HydraulicData :=
  { flowVal := fun t l => |r.flowrate t l|
    flowDir := fun t l => qsign (r.flowrate t l)
    demands := fun t n => r.demand t n + r.leakDemand t n
    tanksLevels := fun t k =>
      r.head t (numJunctions + k) - ((tanks.get? k).map NodeData.elevation).getD 0 }

/-- The simulator state built by ThermalSimulator.__init__ (thermal.py lines
69-99).  The weather collaborator is stored as given, possibly absent; the
constructor never inspects it. -/
structure ThermalSimulator where
  junctions : List NodeData
  tanks : List NodeData
  reservoirs : List NodeData
  time : TimeData
  weather : Option Weather
  fluidDensity : ℚ
  fluidHeatCapacity : ℚ
  hydraulic : HydraulicData
  arccoshQ : ℚ → ℚ
  piQ : ℚ

/-- Embedding of ThermalSimulator.__init__: a total function, it performs no
validation and never touches the weather argument. -/
def ThermalSimulator.init (wn : WNInput) (results : HydraulicResults)
    (weather : Option Weather) : ThermalSimulator :=
  { junctions := wn.junctions
    tanks := wn.tanks
    reservoirs := wn.reservoirs
    time := TimeData.init wn.hydraulicTimestep wn.duration
    weather := weather
    fluidDensity := wn.specificGravity * 1000
    fluidHeatCapacity := wn.heatCapacity
    hydraulic := extractRelevantHydraulicData wn.junctions.length wn.tanks results
    arccoshQ := wn.arccoshQ
    piQ := wn.piQ }

/-- Number of junctions. -/
def ThermalSimulator.numJunctions (s : ThermalSimulator) : ℕ := s.junctions.length

/-- Number of tanks. -/
def ThermalSimulator.numTanks (s : ThermalSimulator) : ℕ := s.tanks.length

/-- Total node count N; ids 0..N-1 are water rows, N..2N-1 soil rows. -/
def ThermalSimulator.numNodes (s : ThermalSimulator) : ℕ :=
  s.junctions.length + s.tanks.length + s.reservoirs.length

/-- The stamp at index t as a rational, the absolute time passed to the
time-varying accessors. -/
def ThermalSimulator.stampQ (s : ThermalSimulator) (t : ℕ) : ℚ :=
  ((s.time.stamps t : ℤ) : ℚ)

/-- Nodes paired with their dense ids starting at an offset: the positional id
assignment of _assign_ids_to_nodes_and_links over junctions ++ tanks ++
reservoirs. -/
def enumFrom (k : ℕ) : List NodeData → List (ℕ × NodeData)
  | [] => []
  | n :: ns => (k, n) :: enumFrom (k + 1) ns

/-- The per-subset answer of the boundary classifier: member names, water-row
ids and soil-row ids IDS = ids + N. -/
structure ObjDataBC where
  names : List String
  ids : List ℕ
  IDS : List ℕ

/-- One group's classification result, keeping the (id, node) pairs of each
boundary class. -/
structure BcPartition where
  pipeBc : List (ℕ × NodeData)
  soilBc : List (ℕ × NodeData)
  airBc : List (ℕ × NodeData)

/-- The classifier _classify_nodes_per_boundary_condition (thermal.py lines
114-141): a match on the node's _thermal_bc string with cases 'pipe', 'soil'
and 'air' and no default, so a node with any other attribute value lands in no
subset. -/
def classifyNodesPerBoundaryCondition (group : List (ℕ × NodeData)) : BcPartition :=
  { pipeBc := group.filter (fun p => p.2.thermalBC = "pipe")
    soilBc := group.filter (fun p => p.2.thermalBC = "soil")
    airBc := group.filter (fun p => p.2.thermalBC = "air") }

/-- The names/ids/IDS view of one classified subset (the ObjData records the
classifier builds, with IDS = ids + num nodes). -/
def ObjDataBC.ofList (n : ℕ) (l : List (ℕ × NodeData)) : ObjDataBC :=
  { names := l.map (fun p => p.2.name)
    ids := l.map (fun p => p.1)
    IDS := l.map (fun p => p.1 + n) }

/-- The split of _get_upstream_downstream_ids (thermal.py lines 157-164): a
connection is upstream when flow_dir[t, link] * connection_side > 0, downstream
otherwise.  Returns the (neighbour id, link id) pairs of the upstream
connections and the link ids of the downstream ones. -/
def getUpstreamDownstreamIds (hyd : HydraulicData) (t : ℕ) (conns : List Conn) :
    List (ℕ × ℕ) × List ℕ :=
  let ups := conns.filter (fun c => 0 < hyd.flowDir t c.link * (c.side : ℚ))
  let downs := conns.filter (fun c => ¬ 0 < hyd.flowDir t c.link * (c.side : ℚ))
  (ups.map (fun c => (c.node, c.link)), downs.map (fun c => c.link))

/-- The error outcomes the engine can hit: an absent weather collaborator
(Python AttributeError on None), an out-of-range array row (numpy IndexError),
and a singular linear system (np.linalg.LinAlgError, whose message carries no
time index). -/
inductive ThermalError
  | missingWeather
  | indexError
  | singularMatrix
deriving DecidableEq

/-- The water-row assembly _modify_water_temperature_rows (thermal.py lines
175-183), writing row id of C and entry id of b. -/
def modifyWaterTemperatureRows (sim : ThermalSimulator) (t id : ℕ)
    (node : NodeData) (R1 accVolume : ℚ) (temperatures : ℕ → ℕ → ℚ)
    (C : Mat) (b : Vec) : Mat × Vec :=
  let N := sim.numNodes
  let ID := id + N
  let ud := getUpstreamDownstreamIds sim.hydraulic t node.connections
  let rhoCpR1inv := 1 / (sim.fluidDensity * sim.fluidHeatCapacity * R1)
  let C1 := updM C id id ((node.waterVolume + accVolume) / sim.time.step
      + (ud.2.map (sim.hydraulic.flowVal t)).sum
      + sim.hydraulic.demands t id + rhoCpR1inv)
  let C2 := ud.1.foldl (fun M p => updM M id p.1 (-(sim.hydraulic.flowVal t p.2))) C1
  let C3 := updM C2 id ID (-rhoCpR1inv)
  let b1 := updV b id (temperatures (t - 1) id * (node.waterVolume + accVolume) / sim.time.step)
  (C3, b1)

/-- The soil-row assembly _modify_soil_temperature_rows (thermal.py lines
185-191), writing row ID of C and entry ID of b. -/
def modifySoilTemperatureRows (sim : ThermalSimulator) (t id : ℕ)
    (node : NodeData) (R1 R2 boundaryTemperature radiationTerm : ℚ)
    (C : Mat) (b : Vec) : Mat × Vec :=
  let N := sim.numNodes
  let ID := id + N
  let C1 := updM C ID ID (node.soilProps.volumetricHeatCapacityAt (sim.stampQ t)
      * node.soilVolume / sim.time.step + 1 / R1 + 1 / R2)
  let C2 := updM C1 ID id (-(1 / R1))
  let Cs := node.soilProps.volumetricHeatCapacityAt (sim.stampQ (t - 1))
  let Ts := node.soilProps.temperatureAt (sim.stampQ (t - 1))
  let b1 := updV b ID (Cs * Ts * node.soilVolume / sim.time.step
      + boundaryTemperature / R2 + radiationTerm)
  (C2, b1)

/-- The resistance calculation _calculate_thermal_resistances (thermal.py lines
166-173).  It dereferences the weather collaborator unconditionally (for the
convective coefficient), so an absent weather is an error on every call. -/
def calculateThermalResistances (sim : ThermalSimulator) (t : ℕ)
    (node : NodeData) (boundaryDepth : ℚ) (includeAirConvection : Bool) :
    Except ThermalError (ℚ × ℚ) :=
  match sim.weather with
  | none => .error .missingWeather
  | some w =>
    let z := node.undergroundDepth - boundaryDepth
    let k := node.soilProps.thermalConductivityAt (sim.stampQ t)
    let hA := w.convectiveHeatTransferCoefAt (sim.stampQ t) * node.soilAirInterfaceArea
    let R1 := node.totalThermalResistance
    let R2 := sim.arccoshQ (2 * z / node.soilOuterDiameter)
        / (2 * sim.piQ * node.soilLength * k)
        + (if includeAirConvection then 1 / hA else 0)
    .ok (R1, R2)

/-- Row builder _add_row_with_pipe_bc (thermal.py lines 193-195): the water row
only, with R1 the node's aggregate pipe resistance. -/
def addRowWithPipeBc (sim : ThermalSimulator) (t id : ℕ) (node : NodeData)
    (accVolume : ℚ) (temperatures : ℕ → ℕ → ℚ) (C : Mat) (b : Vec) : Mat × Vec :=
  modifyWaterTemperatureRows sim t id node node.totalThermalResistance accVolume
    temperatures C b

/-- Row builder _add_row_with_soil_bc (thermal.py lines 197-201): water row plus
soil row with the weather soil-probe boundary temperature and no radiation. -/
def addRowWithSoilBc (sim : ThermalSimulator) (t id : ℕ) (node : NodeData)
    (accVolume : ℚ) (temperatures : ℕ → ℕ → ℚ) (C : Mat) (b : Vec) :
    Except ThermalError (Mat × Vec) :=
  match sim.weather with
  | none => .error .missingWeather
  | some w => do
    let r ← calculateThermalResistances sim t node w.depthOfSoilTemperatureDevice false
    let boundaryTemperature := w.soilTemperatureAt (sim.stampQ t)
    let wb := modifyWaterTemperatureRows sim t id node r.1 accVolume temperatures C b
    .ok (modifySoilTemperatureRows sim t id node r.1 r.2 boundaryTemperature 0 wb.1 wb.2)

/-- Row builder _add_row_with_air_bc (thermal.py lines 203-208): water row plus
soil row with the weather air temperature and the solar radiation term
solar_radiation(t) * soil_air_interface_area * absorptivity(t). -/
def addRowWithAirBc (sim : ThermalSimulator) (t id : ℕ) (node : NodeData)
    (accVolume : ℚ) (temperatures : ℕ → ℕ → ℚ) (C : Mat) (b : Vec) :
    Except ThermalError (Mat × Vec) :=
  match sim.weather with
  | none => .error .missingWeather
  | some w => do
    let r ← calculateThermalResistances sim t node 0 true
    let boundaryTemperature := w.airTemperatureAt (sim.stampQ t)
    let radiationTerm := w.globalSolarRadiationAt (sim.stampQ t)
        * node.soilAirInterfaceArea * node.soilProps.absorptivityAt (sim.stampQ t)
    let wb := modifyWaterTemperatureRows sim t id node r.1 accVolume temperatures C b
    .ok (modifySoilTemperatureRows sim t id node r.1 r.2 boundaryTemperature
      radiationTerm wb.1 wb.2)

/-- The mutable simulation state: water temperatures, soil temperatures and
tank volumes per [time row, column].  The arrays have stampsNum rows in the
source; they are modelled as total functions, with the one row index that the
source computes (rather than takes from the loop) accessed through a
bounds-checked read below. -/
structure SimState where
  temperatures : ℕ → ℕ → ℚ
  soilTemperatures : ℕ → ℕ → ℚ
  tanksVolumes : ℕ → ℕ → ℚ

/-- The t = 0 initialization _initialize_matrices (thermal.py lines 151-155):
junction/tank initial temperatures, reservoir temperature_at(0), tank volumes
from the initial level, and every node's soil-property temperature_at(0). -/
def initializeMatrices (sim : ThermalSimulator) : SimState :=
  let J := sim.numJunctions
  let Tk := sim.numTanks
  let jt := sim.junctions ++ sim.tanks
  { temperatures := fun r c =>
      if r = 0 then
        if c < J + Tk then ((jt.get? c).map NodeData.initialTemperature).getD 0
        else if c < sim.numNodes then
          ((sim.reservoirs.get? (c - (J + Tk))).map (fun nd => nd.temperatureAt 0)).getD 0
        else 0
      else 0
    soilTemperatures := fun r c =>
      if r = 0 ∧ c < sim.numNodes then
        (((sim.junctions ++ sim.tanks ++ sim.reservoirs).get? c).map
          (fun nd => nd.soilProps.temperatureAt 0)).getD 0
      else 0
    tanksVolumes := fun r c =>
      if r = 0 ∧ c < Tk then
        ((sim.tanks.get? c).map (fun nd => nd.getVolume nd.initLevel)).getD 0
      else 0 }

/-- The boundary classification of the three node groups, run once before the
time loop (run_sim lines 212-214), with ids assigned positionally over
junctions ++ tanks ++ reservoirs. -/
structure Partitions where
  junctions : BcPartition
  tanks : BcPartition
  reservoirs : BcPartition

/-- Builds the three per-group partitions. -/
def mkPartitions (sim : ThermalSimulator) : Partitions :=
  { junctions := classifyNodesPerBoundaryCondition (enumFrom 0 sim.junctions)
    tanks := classifyNodesPerBoundaryCondition (enumFrom sim.numJunctions sim.tanks)
    reservoirs := classifyNodesPerBoundaryCondition
      (enumFrom (sim.numJunctions + sim.numTanks) sim.reservoirs) }

/-- The concatenated pipe-bc nodes of all three groups (run_sim lines 215-217). -/
def Partitions.pipeBcAll (p : Partitions) : List (ℕ × NodeData) :=
  p.junctions.pipeBc ++ p.tanks.pipeBc ++ p.reservoirs.pipeBc

/-- The per-iteration state refresh (run_sim lines 220-222): reservoir
temperatures at t, tank volumes at t from the level at t, and pipe-bc soil
boundary temperatures at t. -/
def refreshState (sim : ThermalSimulator) (pipeBcAll : List (ℕ × NodeData))
    (st : SimState) (t : ℕ) : SimState :=
  let J := sim.numJunctions
  let Tk := sim.numTanks
  { temperatures := fun r c =>
      if r = t ∧ J + Tk ≤ c ∧ c < sim.numNodes then
        ((sim.reservoirs.get? (c - (J + Tk))).map
          (fun nd => nd.temperatureAt (sim.stampQ t))).getD (st.temperatures r c)
      else st.temperatures r c
    soilTemperatures := fun r c =>
      if r = t then
        match pipeBcAll.find? (fun p => p.1 = c) with
        | some p => p.2.soilProps.temperatureAt (sim.stampQ t)
        | none => st.soilTemperatures r c
      else st.soilTemperatures r c
    tanksVolumes := fun r c =>
      if r = t ∧ c < Tk then
        ((sim.tanks.get? c).map
          (fun nd => nd.getVolume (sim.hydraulic.tanksLevels t c))).getD (st.tanksVolumes r c)
      else st.tanksVolumes r c }

/-- A bounds-checked numpy read of row r of an array with the given number of
rows: out of range raises IndexError. -/
def npGetRow (rows : ℕ) (a : ℕ → ℕ → ℚ) (r c : ℕ) : Except ThermalError ℚ :=
  if r < rows then .ok (a r c) else .error .indexError

/-- The per-timestep system assembly (run_sim lines 224-256): identity matrix
and zero vector, reservoir and pipe-bc Dirichlet values into b, then the
boundary-class row builders for junctions, tanks (with the accumulated tank
volume read at row stamps[t] of the tank-volume array, as the source writes it)
and reservoirs. -/
def assembleMatrices (sim : ThermalSimulator) (parts : Partitions) (st : SimState)
    (t : ℕ) : Except ThermalError (Mat × Vec) := do
  let N := sim.numNodes
  let J := sim.numJunctions
  let C0 : Mat := fun i j => if i = j then 1 else 0
  let b0 : Vec := fun _ => 0
  let b1 : Vec := fun i =>
    if J + sim.numTanks ≤ i ∧ i < N then st.temperatures t i else b0 i
  let b2 : Vec := fun i =>
    match parts.pipeBcAll.find? (fun p => p.1 + N = i) with
    | some p => st.soilTemperatures t p.1
    | none => b1 i
  let cb := (C0, b2)
  let cb := parts.junctions.pipeBc.foldl
    (fun cb p => addRowWithPipeBc sim t p.1 p.2 0 st.temperatures cb.1 cb.2) cb
  let cb ← parts.junctions.soilBc.foldlM
    (fun cb p => addRowWithSoilBc sim t p.1 p.2 0 st.temperatures cb.1 cb.2) cb
  let cb ← parts.junctions.airBc.foldlM
    (fun cb p => addRowWithAirBc sim t p.1 p.2 0 st.temperatures cb.1 cb.2) cb
  let cb ← parts.tanks.pipeBc.foldlM
    (fun cb p => do
      let acc ← npGetRow sim.time.stampsNum st.tanksVolumes (sim.time.stamps t).toNat (p.1 - J)
      .ok (addRowWithPipeBc sim t p.1 p.2 acc st.temperatures cb.1 cb.2)) cb
  let cb ← parts.tanks.soilBc.foldlM
    (fun cb p => do
      let acc ← npGetRow sim.time.stampsNum st.tanksVolumes (sim.time.stamps t).toNat (p.1 - J)
      addRowWithSoilBc sim t p.1 p.2 acc st.temperatures cb.1 cb.2) cb
  let cb ← parts.tanks.airBc.foldlM
    (fun cb p => do
      let acc ← npGetRow sim.time.stampsNum st.tanksVolumes (sim.time.stamps t).toNat (p.1 - J)
      addRowWithAirBc sim t p.1 p.2 acc st.temperatures cb.1 cb.2) cb
  let cb ← parts.reservoirs.soilBc.foldlM
    (fun cb p =>
      match sim.weather with
      | none => .error .missingWeather
      | some w => do
        let r ← calculateThermalResistances sim t p.2 w.depthOfSoilTemperatureDevice false
        let bt := w.soilTemperatureAt (sim.stampQ t)
        .ok (modifySoilTemperatureRows sim t p.1 p.2 r.1 r.2 bt 0 cb.1 cb.2)) cb
  let cb ← parts.reservoirs.airBc.foldlM
    (fun cb p =>
      match sim.weather with
      | none => .error .missingWeather
      | some w => do
        let r ← calculateThermalResistances sim t p.2 0 true
        let bt := w.airTemperatureAt (sim.stampQ t)
        let rad := w.globalSolarRadiationAt (sim.stampQ t) * p.2.soilArea
            * p.2.soilProps.absorptivityAt (sim.stampQ t)
        .ok (modifySoilTemperatureRows sim t p.1 p.2 r.1 r.2 bt rad cb.1 cb.2)) cb
  .ok cb

/-- The part of the network model the meshnet utility manipulates: named pipes
with their lengths, and the node count. -/
structure MeshNetwork where
  pipes : List (String × ℚ)
  numNodes : ℕ

/-- Modelled from the spec: wntr.morph.split_pipe is not under src/.  Per the
spec's subdivision contract and the connection-data tests, splitting a pipe at
point ratio r keeps the original pipe as the start-side piece of length r * L,
adds one new junction and one new pipe of length (1 - r) * L, and leaves every
other pipe unchanged. -/
def splitPipe (net : MeshNetwork) (pipeName newPipeName _newJunctionName : String)
    (r : ℚ) : MeshNetwork :=
  match net.pipes.find? (fun p => p.1 = pipeName) with
  | none => net
  | some q =>
    { pipes := net.pipes.map (fun p => if p.1 = pipeName then (p.1, r * p.2) else p)
        ++ [(newPipeName, (1 - r) * q.2)]
      numNodes := net.numNodes + 1 }

/-- The new-pipe names generated while splitting one pipe: the i-th iteration
introduces pipe name_{k-i} (meshnet lines 296-301). -/
def genNames (nm : String) (k : ℕ) : List String :=
  (List.range k).map (fun i => nm ++ "_" ++ toString (k - i))

/-- Iteration i of the split loop of meshnet (thermal.py lines 296-305): the
pipe is split at ratio 1 - 1 / (num_splits + 1 - i), the new pipe and junction
are named name_{k-i} and of_name_{k-i}. -/
def splitLoopStep (nm : String) (k : ℕ) (acc2 : MeshNetwork) (i : ℕ) : MeshNetwork :=
  splitPipe acc2 nm (nm ++ "_" ++ toString (k - i))
    ("of_" ++ nm ++ "_" ++ toString (k - i)) (1 - 1 / ((k : ℚ) + 1 - (i : ℚ)))

/-- Processing of one long pipe by meshnet: num_splits = floor(length / max)
iterations of the split loop. -/
def meshStep (m : ℚ) (acc : MeshNetwork) (q : String × ℚ) : MeshNetwork :=
  (List.range ((⌊q.2 / m⌋).toNat)).foldl (splitLoopStep q.1 ((⌊q.2 / m⌋).toNat)) acc

/-- The meshnet utility (thermal.py lines 268-310): with no maximum pipe length
it only prints and returns the network unchanged; otherwise every pipe longer
than the maximum is split floor(length / max) times, each split taken at ratio
1 - 1 / (num_splits + 1 - i) of the remaining start-side piece.  The
return_copy flag only controls aliasing in Python and has no content here. -/
def meshnet (net : MeshNetwork) (maxPipeLength : Option ℚ) : MeshNetwork :=
  match maxPipeLength with
  | none => net
  | some m =>
    let longPipes := net.pipes.filter (fun p => m < p.2)
    if longPipes.isEmpty then net
    else longPipes.foldl (meshStep m) net

/-- Projection out of an Except value with a default, used to state facts about
results whose success is a hypothesis. -/
def exceptOkD {E A : Type} (e : Except E A) (d : A) : A :=
  match e with
  | .ok a => a
  | .error _ => d

/-- Constant soil properties used by the concrete test networks below. -/
def spConst : SoilProps :=
  { temperatureAt := fun _ => 5
    thermalConductivityAt := fun _ => 2
    volumetricHeatCapacityAt := fun _ => 3
    absorptivityAt := fun _ => 1/2 }

/-- A concrete node with the given name, boundary class and connections. -/
def mkNode (nm bc : String) (conns : List Conn) : NodeData :=
  { name := nm
    waterVolume := 1
    soilVolume := 2
    totalThermalResistance := 4
    undergroundDepth := 3
    soilAirInterfaceArea := 2
    soilArea := 7
    soilOuterDiameter := 1
    soilLength := 10
    initialTemperature := 20
    temperatureAt := fun _ => 15
    getVolume := fun l => 2 * l
    initLevel := 3
    elevation := 1
    soilProps := spConst
    connections := conns
    thermalBC := bc }

/-- Concrete hydraulic results: link 0 carries flow 2, every other link flow 3;
demand 1/4 and leak demand 1/8 everywhere; head 6 everywhere. -/
def hydX : HydraulicResults :=
  { flowrate := fun _ l => if l = 0 then 2 else 3
    demand := fun _ _ => 1/4
    leakDemand := fun _ _ => 1/8
    head := fun _ _ => 6 }

/-- Junction 0 of the concrete network: fed by node 1 through link 0 (it sits
at the link's end, side 1) and feeding node 2 through link 1 (side -1). -/
def nodeJ0 : NodeData := mkNode "j0" "pipe" [⟨0, 1, 1⟩, ⟨1, 2, -1⟩]

/-- Concrete network input: three pipe-bc junctions, junction 0 connected
upstream of node 1 via link 0 and downstream of node 2 via link 1. -/
def wnX : WNInput :=
  { junctions := [nodeJ0, mkNode "j1" "pipe" [], mkNode "j2" "pipe" []]
    tanks := []
    reservoirs := []
    hydraulicTimestep := 2
    duration := 4
    specificGravity := 1
    heatCapacity := 4
    arccoshQ := fun q => q
    piQ := 3 }

/-- The simulator built from wnX with no weather collaborator. -/
def simX : ThermalSimulator := ThermalSimulator.init wnX hydX none

/-- Concrete weather data. -/
def weatherX : Weather :=
  { airTemperatureAt := fun _ => 10
    soilTemperatureAt := fun _ => 8
    globalSolarRadiationAt := fun _ => 100
    convectiveHeatTransferCoefAt := fun _ => 3
    depthOfSoilTemperatureDevice := 1 }

/-- A soil-bc junction with no connections. -/
def nodeS0 : NodeData := mkNode "s0" "soil" []

/-- An air-bc junction with no connections. -/
def nodeA1 : NodeData := mkNode "a1" "air" []

/-- Concrete network input with one soil-bc and one air-bc junction. -/
def wnW : WNInput :=
  { junctions := [nodeS0, nodeA1]
    tanks := []
    reservoirs := []
    hydraulicTimestep := 2
    duration := 4
    specificGravity := 1
    heatCapacity := 4
    arccoshQ := fun q => q
    piQ := 3 }

/-- The simulator built from wnW with the concrete weather. -/
def simW : ThermalSimulator := ThermalSimulator.init wnW hydX (some weatherX)

/-- A node whose thermal-boundary attribute is none of the three known kinds. -/
def badNodeG : NodeData := mkNode "g" "ground" []

/-- A pipe-bc junction with no connections, for the Dirichlet-row network. -/
def nodeJP : NodeData := mkNode "jp" "pipe" []

/-- A pipe-bc reservoir for the Dirichlet-row network. -/
def nodeRE : NodeData := mkNode "re" "pipe" []

/-- Concrete network input with one pipe-bc junction and one reservoir. -/
def wnC4 : WNInput :=
  { junctions := [nodeJP]
    tanks := []
    reservoirs := [nodeRE]
    hydraulicTimestep := 2
    duration := 4
    specificGravity := 1
    heatCapacity := 4
    arccoshQ := fun q => q
    piQ := 3 }

/-- The simulator built from wnC4 with no weather collaborator. -/
def simC4 : ThermalSimulator := ThermalSimulator.init wnC4 hydX none

/-- Concrete two-pipe network for the meshing witness: pipe a of length 5,
pipe b of length 2, four nodes. -/
def netC8 : MeshNetwork := { pipes := [("a", 5), ("b", 2)], numNodes := 4 }

theorem append_underscore_ne (nm t : String) : nm ++ "_" ++ t ≠ nm := by
  intro h
  have hl := congrArg String.length h
  rw [String.length_append, String.length_append] at hl
  have h1 : ("_" : String).length = 1 := rfl
  omega

theorem map_upd_id (l : List (String × ℚ)) (nm : String) (r : ℚ)
    (h : ∀ p ∈ l, p.1 ≠ nm) :
    l.map (fun p => if p.1 = nm then (p.1, r * p.2) else p) = l := by
  induction l with
  | nil => rfl
  | cons a l ih =>
    rw [List.map_cons, if_neg (h a (List.mem_cons_self a l)),
      ih (fun p hp => h p (List.mem_cons_of_mem a hp))]

theorem find?_pairs_of_mem (l : List (String × ℚ)) (e : String × ℚ)
    (he : e ∈ l) (hnd : (l.map Prod.fst).Nodup) :
    l.find? (fun p => p.1 = e.1) = some e := by
  induction l with
  | nil => cases he
  | cons a l ih =>
    rw [List.map_cons, List.nodup_cons] at hnd
    rcases List.mem_cons.mp he with he1 | he2
    · subst he1
      rw [List.find?_cons_of_pos _ (by simp)]
    · by_cases hae : a.1 = e.1
      · exact absurd (hae ▸ List.mem_map.mpr ⟨e, he2, rfl⟩) hnd.1
      · rw [List.find?_cons_of_neg _ (by simp [hae])]
        exact ih he2 hnd.2

theorem find?_map_upd (l : List (String × ℚ)) (nm s : String) (r : ℚ)
    (hs : s ≠ nm) :
    (l.map (fun p => if p.1 = nm then (p.1, r * p.2) else p)).find?
        (fun p => p.1 = s)
      = l.find? (fun p => p.1 = s) := by
  induction l with
  | nil => rfl
  | cons a l ih =>
    rw [List.map_cons]
    by_cases has : a.1 = s
    · have hupd : (if a.1 = nm then (a.1, r * a.2) else a) = a := by
        rw [if_neg (by rw [has]; exact hs)]
      rw [hupd, List.find?_cons_of_pos _ (by simp [has]),
        List.find?_cons_of_pos _ (by simp [has])]
    · have h1 : ¬((if a.1 = nm then (a.1, r * a.2) else a).1 = s) := by
        by_cases han : a.1 = nm
        · rw [if_pos han]
          exact has
        · rw [if_neg han]
          exact has
      rw [List.find?_cons_of_neg _ (by simpa using h1),
        List.find?_cons_of_neg _ (by simp [has])]
      exact ih

theorem splitPipe_preserves_find? (net : MeshNetwork) (nm newp newj : String)
    (r : ℚ) (s : String) (e : String × ℚ) (hs : s ≠ nm)
    (h : net.pipes.find? (fun p => p.1 = s) = some e) :
    (splitPipe net nm newp newj r).pipes.find? (fun p => p.1 = s) = some e := by
  rw [splitPipe]
  cases hf : net.pipes.find? (fun p => p.1 = nm) with
  | none => exact h
  | some q =>
    dsimp only
    rw [List.find?_append, find?_map_upd _ _ _ _ hs, h]
    rfl

theorem splitLoop_preserves_find? (nm : String) (k : ℕ) (s : String)
    (e : String × ℚ) (hs : s ≠ nm) (l : List ℕ) :
    ∀ acc : MeshNetwork, acc.pipes.find? (fun p => p.1 = s) = some e →
      (l.foldl (splitLoopStep nm k) acc).pipes.find? (fun p => p.1 = s) = some e := by
  induction l with
  | nil => intro acc h; exact h
  | cons i l ih =>
    intro acc h
    rw [List.foldl_cons]
    exact ih _ (splitPipe_preserves_find? _ _ _ _ _ _ _ hs h)

theorem meshFold_preserves_find? (m : ℚ) (s : String) (e : String × ℚ)
    (todo : List (String × ℚ)) :
    ∀ cur : MeshNetwork, (∀ q ∈ todo, s ≠ q.1) →
      cur.pipes.find? (fun p => p.1 = s) = some e →
      ((todo.foldl (meshStep m) cur).pipes.find? (fun p => p.1 = s) = some e) := by
  induction todo with
  | nil => intro cur _ h; exact h
  | cons q todo ih =>
    intro cur hs h
    rw [List.foldl_cons]
    exact ih _ (fun q1 hq1 => hs q1 (List.mem_cons_of_mem q hq1))
      (splitLoop_preserves_find? _ _ _ _ (hs q (List.mem_cons_self q todo)) _ _ h)

theorem sum_map_constQ (l : List ℕ) (v : ℚ) :
    (l.map (fun _ => v)).sum = (l.length : ℚ) * v := by
  induction l with
  | nil => simp
  | cons a l ih =>
    rw [List.map_cons, List.sum_cons, ih, List.length_cons]
    push_cast
    ring

theorem splitLoop_invariant (nm : String) (L : ℚ) (k : ℕ)
    (P Q : List (String × ℚ)) (n0 : ℕ)
    (hP : ∀ p ∈ P, p.1 ≠ nm) (hQ : ∀ p ∈ Q, p.1 ≠ nm) :
    ∀ j, j ≤ k →
      (List.range j).foldl (splitLoopStep nm k)
        { pipes := P ++ (nm, L) :: Q, numNodes := n0 }
      = { pipes := P ++ (nm, ((k : ℚ) + 1 - (j : ℚ)) * L / ((k : ℚ) + 1))
            :: (Q ++ (List.range j).map
              (fun i => (nm ++ "_" ++ toString (k - i), L / ((k : ℚ) + 1)))),
          numNodes := n0 + j } := by
  intro j
  induction j with
  | zero =>
    intro _
    rw [List.range_zero, List.foldl_nil, List.map_nil, List.append_nil]
    have hk1 : ((k : ℚ) + 1) ≠ 0 := by positivity
    have hL : ((k : ℚ) + 1 - ((0 : ℕ) : ℚ)) * L / ((k : ℚ) + 1) = L := by
      push_cast
      field_simp
    rw [hL, Nat.add_zero]
  | succ j ih =>
    intro hj
    have hjk : j < k := hj
    rw [List.range_succ, List.foldl_append, List.foldl_cons, List.foldl_nil,
      ih (le_of_lt hjk)]
    rw [splitLoopStep, splitPipe]
    have hG : ∀ p ∈ (List.range j).map
        (fun i => (nm ++ "_" ++ toString (k - i), L / ((k : ℚ) + 1))),
        p.1 ≠ nm := by
      intro p hp
      obtain ⟨i, _, rfl⟩ := List.mem_map.mp hp
      exact append_underscore_ne nm (toString (k - i))
    have hfP : P.find? (fun p => p.1 = nm) = none :=
      List.find?_eq_none.mpr (fun p hp => by simp [hP p hp])
    have hfind : (P ++ (nm, ((k : ℚ) + 1 - (j : ℚ)) * L / ((k : ℚ) + 1))
        :: (Q ++ (List.range j).map
          (fun i => (nm ++ "_" ++ toString (k - i), L / ((k : ℚ) + 1))))).find?
        (fun p => p.1 = nm)
        = some (nm, ((k : ℚ) + 1 - (j : ℚ)) * L / ((k : ℚ) + 1)) := by
      rw [List.find?_append, hfP, List.find?_cons_of_pos _ (by simp)]
      rfl
    rw [hfind]
    dsimp only
    rw [List.map_append, List.map_cons, List.map_append,
      map_upd_id P nm _ hP, map_upd_id Q nm _ hQ, map_upd_id _ nm _ hG,
      if_pos rfl]
    have hne : ((k : ℚ) + 1 - (j : ℚ)) ≠ 0 := by
      have hlt : (j : ℚ) < (k : ℚ) := by exact_mod_cast hjk
      intro h0
      linarith
    have hr1 : (1 - 1 / ((k : ℚ) + 1 - (j : ℚ)))
        * (((k : ℚ) + 1 - (j : ℚ)) * L / ((k : ℚ) + 1))
        = ((k : ℚ) + 1 - ((j + 1 : ℕ) : ℚ)) * L / ((k : ℚ) + 1) := by
      push_cast
      field_simp
      ring
    have hr2 : (1 - (1 - 1 / ((k : ℚ) + 1 - (j : ℚ))))
        * (((k : ℚ) + 1 - (j : ℚ)) * L / ((k : ℚ) + 1))
        = L / ((k : ℚ) + 1) := by
      field_simp
    rw [hr1, hr2]
    simp [List.append_assoc, Nat.add_assoc]

end WNTRThermal

namespace WNTRThermal

theorem updM_apply_self (M : Mat) (r c : ℕ) (v : ℚ) : updM M r c v r c = v := by
  simp [updM]

theorem updM_apply_ne (M : Mat) (r c : ℕ) (v : ℚ) {i j : ℕ} (h : ¬(i = r ∧ j = c)) :
    updM M r c v i j = M i j := by
  simp only [updM, if_neg h]

theorem updV_apply_self (b : Vec) (i : ℕ) (v : ℚ) : updV b i v i = v := by
  simp [updV]

theorem updV_apply_ne (b : Vec) (i : ℕ) (v : ℚ) {j : ℕ} (h : j ≠ i) :
    updV b i v j = b j := by
  simp only [updV, if_neg h]

theorem foldl_updM_apply_of_not_mem (L : List (ℕ × ℕ)) (g : ℕ × ℕ → ℚ)
    (r : ℕ) {i j : ℕ} :
    ∀ M : Mat, (i ≠ r ∨ j ∉ L.map Prod.fst) →
      (L.foldl (fun A p => updM A r p.1 (g p)) M) i j = M i j := by
  induction L with
  | nil => intro M _; rfl
  | cons q L ih =>
    intro M h
    have hL : i ≠ r ∨ j ∉ L.map Prod.fst := by
      rcases h with h | h
      · exact Or.inl h
      · exact Or.inr (fun hj => h (by simp [List.map_cons, List.mem_cons, hj]))
    have hq : ¬(i = r ∧ j = q.1) := by
      rintro ⟨rfl, rfl⟩
      rcases h with h | h
      · exact h rfl
      · exact h (by simp [List.map_cons])
    rw [List.foldl_cons, ih (updM M r q.1 (g q)) hL, updM_apply_ne _ _ _ _ hq]

theorem foldl_updM_apply_of_mem (L : List (ℕ × ℕ)) (g : ℕ × ℕ → ℚ)
    (r : ℕ) (p : ℕ × ℕ) :
    ∀ M : Mat, p ∈ L → (L.map Prod.fst).Nodup →
      (L.foldl (fun A q => updM A r q.1 (g q)) M) r p.1 = g p := by
  induction L with
  | nil => intro M h _; cases h
  | cons q L ih =>
    intro M hmem hnodup
    rw [List.map_cons] at hnodup
    have hhead : q.1 ∉ L.map Prod.fst := (List.nodup_cons.mp hnodup).1
    have htail : (L.map Prod.fst).Nodup := (List.nodup_cons.mp hnodup).2
    rcases List.mem_cons.mp hmem with rfl | hmem
    · rw [List.foldl_cons,
        foldl_updM_apply_of_not_mem L g r _ (Or.inr hhead), updM_apply_self]
    · exact ih (updM M r q.1 (g q)) hmem htail

theorem modifyWaterTemperatureRows_spec (sim : ThermalSimulator) (t id : ℕ)
    (node : NodeData) (R1 accVolume : ℚ) (temps : ℕ → ℕ → ℚ) (C : Mat) (b : Vec)
    (hid : id < sim.numNodes)
    (hself : ∀ q ∈ (getUpstreamDownstreamIds sim.hydraulic t node.connections).1, q.1 ≠ id)
    (hub : ∀ q ∈ (getUpstreamDownstreamIds sim.hydraulic t node.connections).1,
      q.1 < sim.numNodes)
    (hnodup : ((getUpstreamDownstreamIds sim.hydraulic t node.connections).1.map
      Prod.fst).Nodup) :
    (modifyWaterTemperatureRows sim t id node R1 accVolume temps C b).1 id id
      = (node.waterVolume + accVolume) / sim.time.step
        + (((getUpstreamDownstreamIds sim.hydraulic t node.connections).2).map
            (sim.hydraulic.flowVal t)).sum
        + sim.hydraulic.demands t id
        + 1 / (sim.fluidDensity * sim.fluidHeatCapacity * R1)
    ∧ (∀ q ∈ (getUpstreamDownstreamIds sim.hydraulic t node.connections).1,
        (modifyWaterTemperatureRows sim t id node R1 accVolume temps C b).1 id q.1
          = -(sim.hydraulic.flowVal t q.2))
    ∧ (modifyWaterTemperatureRows sim t id node R1 accVolume temps C b).1 id
        (id + sim.numNodes)
      = -(1 / (sim.fluidDensity * sim.fluidHeatCapacity * R1))
    ∧ (modifyWaterTemperatureRows sim t id node R1 accVolume temps C b).2 id
      = temps (t - 1) id * (node.waterVolume + accVolume) / sim.time.step := by
  have hIDne : ¬(id = id ∧ id = id + sim.numNodes) := by omega
  refine ⟨?_, ?_, ?_, ?_⟩
  · show (updM _ id (id + sim.numNodes) _) id id = _
    rw [updM_apply_ne _ _ _ _ hIDne]
    have hnm : id ∉ ((getUpstreamDownstreamIds sim.hydraulic t node.connections).1.map
        Prod.fst) := by
      intro hmem
      rcases List.mem_map.mp hmem with ⟨q, hq, hq1⟩
      exact hself q hq hq1
    rw [foldl_updM_apply_of_not_mem _ _ _ _ (Or.inr hnm), updM_apply_self]
  · intro q hq
    have hqID : ¬(id = id ∧ q.1 = id + sim.numNodes) := by
      have := hub q hq
      omega
    show (updM _ id (id + sim.numNodes) _) id q.1 = _
    rw [updM_apply_ne _ _ _ _ hqID]
    exact foldl_updM_apply_of_mem _ _ _ _ _ hq hnodup
  · exact updM_apply_self _ _ _ _
  · exact updV_apply_self _ _ _

theorem modifyWaterTemperatureRows_frame (sim : ThermalSimulator) (t id : ℕ)
    (node : NodeData) (R1 accVolume : ℚ) (temps : ℕ → ℕ → ℚ) (C : Mat) (b : Vec)
    {i : ℕ} (hi : i ≠ id) :
    (∀ j, (modifyWaterTemperatureRows sim t id node R1 accVolume temps C b).1 i j = C i j)
    ∧ (modifyWaterTemperatureRows sim t id node R1 accVolume temps C b).2 i = b i := by
  constructor
  · intro j
    show (updM _ id (id + sim.numNodes) _) i j = _
    rw [updM_apply_ne _ _ _ _ (fun h => hi h.1),
      foldl_updM_apply_of_not_mem _ _ _ _ (Or.inl hi),
      updM_apply_ne _ _ _ _ (fun h => hi h.1)]
  · exact updV_apply_ne _ _ _ hi

theorem modifySoilTemperatureRows_spec (sim : ThermalSimulator) (t id : ℕ)
    (node : NodeData) (R1 R2 boundaryTemperature radiationTerm : ℚ) (C : Mat) (b : Vec)
    (hid : id < sim.numNodes) :
    (modifySoilTemperatureRows sim t id node R1 R2 boundaryTemperature radiationTerm C b).1
        (id + sim.numNodes) (id + sim.numNodes)
      = node.soilProps.volumetricHeatCapacityAt (sim.stampQ t) * node.soilVolume
          / sim.time.step + 1 / R1 + 1 / R2
    ∧ (modifySoilTemperatureRows sim t id node R1 R2 boundaryTemperature radiationTerm C b).1
        (id + sim.numNodes) id
      = -(1 / R1)
    ∧ (modifySoilTemperatureRows sim t id node R1 R2 boundaryTemperature radiationTerm C b).2
        (id + sim.numNodes)
      = node.soilProps.volumetricHeatCapacityAt (sim.stampQ (t - 1))
          * node.soilProps.temperatureAt (sim.stampQ (t - 1)) * node.soilVolume
          / sim.time.step + boundaryTemperature / R2 + radiationTerm := by
  have hne : ¬(id + sim.numNodes = id + sim.numNodes ∧ id + sim.numNodes = id) := by omega
  refine ⟨?_, ?_, ?_⟩
  · show (updM _ (id + sim.numNodes) id _) (id + sim.numNodes) (id + sim.numNodes) = _
    rw [updM_apply_ne _ _ _ _ hne, updM_apply_self]
  · exact updM_apply_self _ _ _ _
  · exact updV_apply_self _ _ _

theorem modifySoilTemperatureRows_frame (sim : ThermalSimulator) (t id : ℕ)
    (node : NodeData) (R1 R2 boundaryTemperature radiationTerm : ℚ) (C : Mat) (b : Vec)
    {i : ℕ} (hi : i ≠ id + sim.numNodes) :
    (∀ j, (modifySoilTemperatureRows sim t id node R1 R2 boundaryTemperature radiationTerm
        C b).1 i j = C i j)
    ∧ (modifySoilTemperatureRows sim t id node R1 R2 boundaryTemperature radiationTerm
        C b).2 i = b i := by
  constructor
  · intro j
    show (updM _ (id + sim.numNodes) id _) i j = _
    rw [updM_apply_ne _ _ _ _ (fun h => hi h.1), updM_apply_ne _ _ _ _ (fun h => hi h.1)]
  · exact updV_apply_ne _ _ _ hi

theorem getUpstreamDownstreamIds_extract (J : ℕ) (tks : List NodeData)
    (res : HydraulicResults) (t : ℕ) (conns : List Conn) :
    getUpstreamDownstreamIds (extractRelevantHydraulicData J tks res) t conns
      = ((conns.filter (fun c => 0 < qsign (res.flowrate t c.link) * (c.side : ℚ))).map
           (fun c => (c.node, c.link)),
         (conns.filter (fun c => ¬ 0 < qsign (res.flowrate t c.link) * (c.side : ℚ))).map
           (fun c => c.link)) := rfl

/-- C1: for a junction or tank node at any timestep, the assembled water row
splits the node's connections by the sign of sign(flow) * connection_side —
positive product upstream, otherwise downstream; the diagonal is
(water_volume + acc_volume)/step + the outflow magnitudes + demand[t, id] +
1/(rho cp R1); each upstream neighbour's entry is minus its inflow magnitude;
the soil-coupling entry is -1/(rho cp R1); and the right-hand side is the
previous water temperature times (water_volume + acc_volume)/step. -/
theorem water_row_is_upwind_energy_balance (sim : ThermalSimulator) (J : ℕ)
    (tks : List NodeData) (res : HydraulicResults)
    (hh : sim.hydraulic = extractRelevantHydraulicData J tks res)
    (t id : ℕ) (node : NodeData) (R1 accVolume : ℚ) (temps : ℕ → ℕ → ℚ)
    (C : Mat) (b : Vec)
    (hid : id < sim.numNodes)
    (hself : ∀ c ∈ node.connections.filter
        (fun c => 0 < qsign (res.flowrate t c.link) * (c.side : ℚ)), c.node ≠ id)
    (hub : ∀ c ∈ node.connections.filter
        (fun c => 0 < qsign (res.flowrate t c.link) * (c.side : ℚ)), c.node < sim.numNodes)
    (hnodup : ((node.connections.filter
        (fun c => 0 < qsign (res.flowrate t c.link) * (c.side : ℚ))).map
          (fun c => c.node)).Nodup) :
    (modifyWaterTemperatureRows sim t id node R1 accVolume temps C b).1 id id
      = (node.waterVolume + accVolume) / sim.time.step
        + ((node.connections.filter
            (fun c => ¬ 0 < qsign (res.flowrate t c.link) * (c.side : ℚ))).map
              (fun c => |res.flowrate t c.link|)).sum
        + (res.demand t id + res.leakDemand t id)
        + 1 / (sim.fluidDensity * sim.fluidHeatCapacity * R1)
    ∧ (∀ c ∈ node.connections.filter
          (fun c => 0 < qsign (res.flowrate t c.link) * (c.side : ℚ)),
        (modifyWaterTemperatureRows sim t id node R1 accVolume temps C b).1 id c.node
          = -|res.flowrate t c.link|)
    ∧ (modifyWaterTemperatureRows sim t id node R1 accVolume temps C b).1 id
        (id + sim.numNodes)
      = -(1 / (sim.fluidDensity * sim.fluidHeatCapacity * R1))
    ∧ (modifyWaterTemperatureRows sim t id node R1 accVolume temps C b).2 id
      = temps (t - 1) id * (node.waterVolume + accVolume) / sim.time.step := by
  have key := getUpstreamDownstreamIds_extract J tks res t node.connections
  have hself' : ∀ q ∈ (getUpstreamDownstreamIds sim.hydraulic t node.connections).1,
      q.1 ≠ id := by
    rw [hh, key]
    intro q hq
    rcases List.mem_map.mp hq with ⟨c, hc, rfl⟩
    exact hself c hc
  have hub' : ∀ q ∈ (getUpstreamDownstreamIds sim.hydraulic t node.connections).1,
      q.1 < sim.numNodes := by
    rw [hh, key]
    intro q hq
    rcases List.mem_map.mp hq with ⟨c, hc, rfl⟩
    exact hub c hc
  have hnodup' : ((getUpstreamDownstreamIds sim.hydraulic t node.connections).1.map
      Prod.fst).Nodup := by
    rw [hh, key]
    simpa [List.map_map, Function.comp] using hnodup
  have hs := modifyWaterTemperatureRows_spec sim t id node R1 accVolume temps C b
    hid hself' hub' hnodup'
  refine ⟨?_, ?_, hs.2.2.1, hs.2.2.2⟩
  · rw [hs.1, hh, key]
    simp [extractRelevantHydraulicData, List.map_map, Function.comp_def]
  · intro c hc
    have hmem : (c.node, c.link) ∈ (getUpstreamDownstreamIds sim.hydraulic t
        node.connections).1 := by
      rw [hh, key]
      exact List.mem_map.mpr ⟨c, hc, rfl⟩
    have := hs.2.1 (c.node, c.link) hmem
    rw [this, hh]
    rfl

/-- Witness for C1 at the concrete network: junction 0 at t = 1 has upstream
neighbour 1 with flow 2 and downstream link 1 with flow 3, yielding the exact
row entries. -/
theorem water_row_is_upwind_energy_balance_witness :
    (modifyWaterTemperatureRows simX 1 0 nodeJ0 4 0 (fun _ _ => 20)
        (fun i j => if i = j then 1 else 0) (fun _ => 0)).1 0 0 = 62001/16000
    ∧ (modifyWaterTemperatureRows simX 1 0 nodeJ0 4 0 (fun _ _ => 20)
        (fun i j => if i = j then 1 else 0) (fun _ => 0)).1 0 1 = -2
    ∧ (modifyWaterTemperatureRows simX 1 0 nodeJ0 4 0 (fun _ _ => 20)
        (fun i j => if i = j then 1 else 0) (fun _ => 0)).1 0 3 = -(1/16000)
    ∧ (modifyWaterTemperatureRows simX 1 0 nodeJ0 4 0 (fun _ _ => 20)
        (fun i j => if i = j then 1 else 0) (fun _ => 0)).2 0 = 10 := by
  have h := water_row_is_upwind_energy_balance simX 3 [] hydX rfl 1 0 nodeJ0 4 0
    (fun _ _ => 20) (fun i j => if i = j then 1 else 0) (fun _ => 0)
    (by norm_num [simX, ThermalSimulator.init, ThermalSimulator.numNodes, wnX])
    (by norm_num [nodeJ0, mkNode, hydX, qsign, List.filter])
    (by norm_num [nodeJ0, mkNode, hydX, qsign, List.filter, simX,
      ThermalSimulator.init, ThermalSimulator.numNodes, wnX])
    (by norm_num [nodeJ0, mkNode, hydX, qsign, List.filter])
  refine ⟨?_, ?_, ?_, ?_⟩
  · rw [h.1]
    norm_num [nodeJ0, mkNode, hydX, qsign, List.filter, simX, ThermalSimulator.init,
      wnX, TimeData.init]
  · have hm : (⟨0, 1, 1⟩ : Conn) ∈ nodeJ0.connections.filter
        (fun c => 0 < qsign (hydX.flowrate 1 c.link) * (c.side : ℚ)) := by
      norm_num [nodeJ0, mkNode, hydX, qsign, List.filter]
    have := h.2.1 ⟨0, 1, 1⟩ hm
    rw [this]
    norm_num [hydX]
  · have := h.2.2.1
    rw [show (0 : ℕ) + simX.numNodes = 3 from by
      norm_num [simX, ThermalSimulator.init, ThermalSimulator.numNodes, wnX]] at this
    rw [this]
    norm_num [simX, ThermalSimulator.init, wnX]
  · rw [h.2.2.2]
    norm_num [nodeJ0, mkNode, simX, ThermalSimulator.init, wnX, TimeData.init]

/-- C10: the demand term added to the water-row diagonal is the hydraulic
demand plus the leak demand of that node and timestep, summed unconditionally
by the extraction. -/
theorem demand_term_sums_hydraulic_and_leak (sim : ThermalSimulator) (J : ℕ)
    (tks : List NodeData) (res : HydraulicResults)
    (hh : sim.hydraulic = extractRelevantHydraulicData J tks res)
    (t id : ℕ) (node : NodeData) (R1 accVolume : ℚ) (temps : ℕ → ℕ → ℚ)
    (C : Mat) (b : Vec)
    (hid : id < sim.numNodes)
    (hself : ∀ q ∈ (getUpstreamDownstreamIds sim.hydraulic t node.connections).1,
      q.1 ≠ id) :
    sim.hydraulic.demands t id = res.demand t id + res.leakDemand t id
    ∧ (modifyWaterTemperatureRows sim t id node R1 accVolume temps C b).1 id id
      = (node.waterVolume + accVolume) / sim.time.step
        + (((getUpstreamDownstreamIds sim.hydraulic t node.connections).2).map
            (sim.hydraulic.flowVal t)).sum
        + (res.demand t id + res.leakDemand t id)
        + 1 / (sim.fluidDensity * sim.fluidHeatCapacity * R1) := by
  have hIDne : ¬(id = id ∧ id = id + sim.numNodes) := by omega
  have hnm : id ∉ ((getUpstreamDownstreamIds sim.hydraulic t node.connections).1.map
      Prod.fst) := by
    intro hmem
    rcases List.mem_map.mp hmem with ⟨q, hq, hq1⟩
    exact hself q hq hq1
  constructor
  · rw [hh]
    rfl
  · show (updM _ id (id + sim.numNodes) _) id id = _
    rw [updM_apply_ne _ _ _ _ hIDne,
      foldl_updM_apply_of_not_mem _ _ _ _ (Or.inr hnm), updM_apply_self, hh]
    rfl

/-- Witness for C10 at the concrete network: demand 1/4 plus leak demand 1/8
gives 3/8, entering the diagonal 62001/16000. -/
theorem demand_term_sums_hydraulic_and_leak_witness :
    simX.hydraulic.demands 1 0 = 3/8
    ∧ (modifyWaterTemperatureRows simX 1 0 nodeJ0 4 0 (fun _ _ => 21)
        (fun i j => if i = j then 1 else 0) (fun _ => 0)).1 0 0 = 62001/16000 := by
  have h := demand_term_sums_hydraulic_and_leak simX 3 [] hydX rfl 1 0 nodeJ0 4 0
    (fun _ _ => 21) (fun i j => if i = j then 1 else 0) (fun _ => 0)
    (by norm_num [simX, ThermalSimulator.init, ThermalSimulator.numNodes, wnX])
    (by norm_num [nodeJ0, mkNode, hydX, qsign, List.filter, simX,
      ThermalSimulator.init, extractRelevantHydraulicData, getUpstreamDownstreamIds])
  constructor
  · rw [h.1]
    norm_num [hydX]
  · rw [h.2]
    norm_num [nodeJ0, mkNode, hydX, qsign, List.filter, simX, ThermalSimulator.init,
      wnX, TimeData.init, extractRelevantHydraulicData, getUpstreamDownstreamIds]

/-- C2: for a soil-BC or air-BC node at any timestep, with R1 and R2 as
computed by the thermal-resistance model, the assembled soil row is exactly:
diagonal volumetric_heat_capacity(t) * soil_volume / step + 1/R1 + 1/R2,
coupling entry -1/R1, and right-hand side volumetric_heat_capacity(t-1) *
temperature_at(t-1) * soil_volume / step + boundary_temperature / R2 +
radiation_term, where the radiation term is 0 and the boundary temperature the
weather soil-probe temperature for soil BC, and the radiation term
solar_radiation(t) * interface_area * absorptivity(t) with the weather air
temperature for air BC. -/
theorem soil_row_assembly (sim : ThermalSimulator) (w : Weather)
    (hw : sim.weather = some w) (t id : ℕ) (node : NodeData) (accVolume : ℚ)
    (temps : ℕ → ℕ → ℚ) (C : Mat) (b : Vec) (hid : id < sim.numNodes) :
    (∀ R1 R2 : ℚ,
      calculateThermalResistances sim t node w.depthOfSoilTemperatureDevice false
          = .ok (R1, R2) →
        (exceptOkD (addRowWithSoilBc sim t id node accVolume temps C b) (C, b)).1
            (id + sim.numNodes) (id + sim.numNodes)
          = node.soilProps.volumetricHeatCapacityAt (sim.stampQ t) * node.soilVolume
              / sim.time.step + 1 / R1 + 1 / R2
        ∧ (exceptOkD (addRowWithSoilBc sim t id node accVolume temps C b) (C, b)).1
            (id + sim.numNodes) id = -(1 / R1)
        ∧ (exceptOkD (addRowWithSoilBc sim t id node accVolume temps C b) (C, b)).2
            (id + sim.numNodes)
          = node.soilProps.volumetricHeatCapacityAt (sim.stampQ (t - 1))
              * node.soilProps.temperatureAt (sim.stampQ (t - 1)) * node.soilVolume
              / sim.time.step + w.soilTemperatureAt (sim.stampQ t) / R2 + 0)
    ∧ (∀ R1 R2 : ℚ,
      calculateThermalResistances sim t node 0 true = .ok (R1, R2) →
        (exceptOkD (addRowWithAirBc sim t id node accVolume temps C b) (C, b)).1
            (id + sim.numNodes) (id + sim.numNodes)
          = node.soilProps.volumetricHeatCapacityAt (sim.stampQ t) * node.soilVolume
              / sim.time.step + 1 / R1 + 1 / R2
        ∧ (exceptOkD (addRowWithAirBc sim t id node accVolume temps C b) (C, b)).1
            (id + sim.numNodes) id = -(1 / R1)
        ∧ (exceptOkD (addRowWithAirBc sim t id node accVolume temps C b) (C, b)).2
            (id + sim.numNodes)
          = node.soilProps.volumetricHeatCapacityAt (sim.stampQ (t - 1))
              * node.soilProps.temperatureAt (sim.stampQ (t - 1)) * node.soilVolume
              / sim.time.step + w.airTemperatureAt (sim.stampQ t) / R2
              + w.globalSolarRadiationAt (sim.stampQ t) * node.soilAirInterfaceArea
                  * node.soilProps.absorptivityAt (sim.stampQ t)) := by
  constructor
  · intro R1 R2 hcalc
    have hres : addRowWithSoilBc sim t id node accVolume temps C b
        = .ok (modifySoilTemperatureRows sim t id node R1 R2
            (w.soilTemperatureAt (sim.stampQ t)) 0
            (modifyWaterTemperatureRows sim t id node R1 accVolume temps C b).1
            (modifyWaterTemperatureRows sim t id node R1 accVolume temps C b).2) := by
      simp only [addRowWithSoilBc, hw, hcalc, bind, Except.bind]
    rw [hres]
    simp only [exceptOkD]
    exact modifySoilTemperatureRows_spec sim t id node R1 R2 _ 0 _ _ hid
  · intro R1 R2 hcalc
    have hres : addRowWithAirBc sim t id node accVolume temps C b
        = .ok (modifySoilTemperatureRows sim t id node R1 R2
            (w.airTemperatureAt (sim.stampQ t))
            (w.globalSolarRadiationAt (sim.stampQ t) * node.soilAirInterfaceArea
              * node.soilProps.absorptivityAt (sim.stampQ t))
            (modifyWaterTemperatureRows sim t id node R1 accVolume temps C b).1
            (modifyWaterTemperatureRows sim t id node R1 accVolume temps C b).2) := by
      simp only [addRowWithAirBc, hw, hcalc, bind, Except.bind]
    rw [hres]
    simp only [exceptOkD]
    exact modifySoilTemperatureRows_spec sim t id node R1 R2 _ _ _ _ hid

/-- Witness for C2 at the concrete network: soil junction 0 with R1 = 4,
R2 = 1/30 and air junction 1 with R1 = 4, R2 = 13/60 give the stated soil-row
entries. -/
theorem soil_row_assembly_witness :
    (exceptOkD (addRowWithSoilBc simW 1 0 nodeS0 0 (fun _ _ => 20)
        (fun i j => if i = j then 1 else 0) (fun _ => 0))
        ((fun i j => if i = j then 1 else 0), (fun _ => 0))).1 2 2 = 133/4
    ∧ (exceptOkD (addRowWithSoilBc simW 1 0 nodeS0 0 (fun _ _ => 20)
        (fun i j => if i = j then 1 else 0) (fun _ => 0))
        ((fun i j => if i = j then 1 else 0), (fun _ => 0))).1 2 0 = -(1/4)
    ∧ (exceptOkD (addRowWithSoilBc simW 1 0 nodeS0 0 (fun _ _ => 20)
        (fun i j => if i = j then 1 else 0) (fun _ => 0))
        ((fun i j => if i = j then 1 else 0), (fun _ => 0))).2 2 = 255
    ∧ (exceptOkD (addRowWithAirBc simW 1 1 nodeA1 0 (fun _ _ => 20)
        (fun i j => if i = j then 1 else 0) (fun _ => 0))
        ((fun i j => if i = j then 1 else 0), (fun _ => 0))).1 3 3 = 409/52
    ∧ (exceptOkD (addRowWithAirBc simW 1 1 nodeA1 0 (fun _ _ => 20)
        (fun i j => if i = j then 1 else 0) (fun _ => 0))
        ((fun i j => if i = j then 1 else 0), (fun _ => 0))).1 3 1 = -(1/4)
    ∧ (exceptOkD (addRowWithAirBc simW 1 1 nodeA1 0 (fun _ _ => 20)
        (fun i j => if i = j then 1 else 0) (fun _ => 0))
        ((fun i j => if i = j then 1 else 0), (fun _ => 0))).2 3 = 2095/13 := by
  have hid0 : (0 : ℕ) < simW.numNodes := by
    norm_num [simW, ThermalSimulator.init, ThermalSimulator.numNodes, wnW]
  have hid1 : (1 : ℕ) < simW.numNodes := by
    norm_num [simW, ThermalSimulator.init, ThermalSimulator.numNodes, wnW]
  have hN : simW.numNodes = 2 := by
    norm_num [simW, ThermalSimulator.init, ThermalSimulator.numNodes, wnW]
  have hcS : calculateThermalResistances simW 1 nodeS0
      weatherX.depthOfSoilTemperatureDevice false = .ok (4, 1/30) := by
    norm_num [calculateThermalResistances, simW, ThermalSimulator.init, wnW,
      nodeS0, mkNode, spConst, weatherX]
  have hcA : calculateThermalResistances simW 1 nodeA1 0 true = .ok (4, 13/60) := by
    norm_num [calculateThermalResistances, simW, ThermalSimulator.init, wnW,
      nodeA1, mkNode, spConst, weatherX]
  have hS := (soil_row_assembly simW weatherX rfl 1 0 nodeS0 0 (fun _ _ => 20)
    (fun i j => if i = j then 1 else 0) (fun _ => 0) hid0).1 4 (1/30) hcS
  have hA := (soil_row_assembly simW weatherX rfl 1 1 nodeA1 0 (fun _ _ => 20)
    (fun i j => if i = j then 1 else 0) (fun _ => 0) hid1).2 4 (13/60) hcA
  rw [hN] at hS hA
  refine ⟨?_, ?_, ?_, ?_, ?_, ?_⟩
  · rw [show (2 : ℕ) = 0 + 2 from rfl, hS.1]
    norm_num [nodeS0, mkNode, spConst, simW, ThermalSimulator.init, wnW, TimeData.init]
  · have := hS.2.1
    rw [show (0 : ℕ) + 2 = 2 from rfl] at this
    rw [this]
  · have := hS.2.2
    rw [show (0 : ℕ) + 2 = 2 from rfl] at this
    rw [this]
    norm_num [nodeS0, mkNode, spConst, simW, ThermalSimulator.init, wnW,
      TimeData.init, weatherX]
  · have := hA.1
    rw [show (1 : ℕ) + 2 = 3 from rfl] at this
    rw [this]
    norm_num [nodeA1, mkNode, spConst, simW, ThermalSimulator.init, wnW, TimeData.init]
  · have := hA.2.1
    rw [show (1 : ℕ) + 2 = 3 from rfl] at this
    rw [this]
  · have := hA.2.2
    rw [show (1 : ℕ) + 2 = 3 from rfl] at this
    rw [this]
    norm_num [nodeA1, mkNode, spConst, simW, ThermalSimulator.init, wnW,
      TimeData.init, weatherX]

/-- C5 counterexample: a node whose thermal-boundary attribute is 'ground'
lands in none of the three subsets, so their union is not the whole group, and
classification returns normally — nothing fails at construction or later. -/
theorem classification_unknown_kind_silently_dropped :
    (classifyNodesPerBoundaryCondition [(0, badNodeG)]).pipeBc = []
    ∧ (classifyNodesPerBoundaryCondition [(0, badNodeG)]).soilBc = []
    ∧ (classifyNodesPerBoundaryCondition [(0, badNodeG)]).airBc = []
    ∧ (0, badNodeG) ∈ [(0, badNodeG)] := by
  refine ⟨?_, ?_, ?_, by simp⟩ <;>
    simp [classifyNodesPerBoundaryCondition, badNodeG, mkNode, List.filter]

/-- C5 (amended): the classifier's three subsets are exactly the pipe/soil/air
filters of the group — pairwise disjoint, jointly covering every node whose
attribute is one of the three known kinds, each subset carrying member names,
water-row ids and soil-row ids id + N — while a node with any other attribute
is silently dropped into no subset and no error is raised. -/
theorem classification_partitions_known_kinds (group : List (ℕ × NodeData))
    (n : ℕ) (l : List (ℕ × NodeData)) :
    ((classifyNodesPerBoundaryCondition group).pipeBc
        = group.filter (fun p => p.2.thermalBC = "pipe")
      ∧ (classifyNodesPerBoundaryCondition group).soilBc
        = group.filter (fun p => p.2.thermalBC = "soil")
      ∧ (classifyNodesPerBoundaryCondition group).airBc
        = group.filter (fun p => p.2.thermalBC = "air"))
    ∧ (∀ p ∈ (classifyNodesPerBoundaryCondition group).pipeBc,
        p ∉ (classifyNodesPerBoundaryCondition group).soilBc
        ∧ p ∉ (classifyNodesPerBoundaryCondition group).airBc)
    ∧ (∀ p ∈ (classifyNodesPerBoundaryCondition group).soilBc,
        p ∉ (classifyNodesPerBoundaryCondition group).airBc)
    ∧ (∀ p ∈ group,
        p.2.thermalBC = "pipe" ∨ p.2.thermalBC = "soil" ∨ p.2.thermalBC = "air" →
          p ∈ (classifyNodesPerBoundaryCondition group).pipeBc
          ∨ p ∈ (classifyNodesPerBoundaryCondition group).soilBc
          ∨ p ∈ (classifyNodesPerBoundaryCondition group).airBc)
    ∧ (∀ p ∈ group,
        p.2.thermalBC ≠ "pipe" → p.2.thermalBC ≠ "soil" → p.2.thermalBC ≠ "air" →
          p ∉ (classifyNodesPerBoundaryCondition group).pipeBc
          ∧ p ∉ (classifyNodesPerBoundaryCondition group).soilBc
          ∧ p ∉ (classifyNodesPerBoundaryCondition group).airBc)
    ∧ ((ObjDataBC.ofList n l).names = l.map (fun p => p.2.name)
      ∧ (ObjDataBC.ofList n l).ids = l.map (fun p => p.1)
      ∧ (ObjDataBC.ofList n l).IDS = l.map (fun p => p.1 + n)) := by
  refine ⟨⟨rfl, rfl, rfl⟩, ?_, ?_, ?_, ?_, ⟨rfl, rfl, rfl⟩⟩
  · intro p hp
    rw [classifyNodesPerBoundaryCondition, List.mem_filter] at hp
    have hbc := of_decide_eq_true hp.2
    constructor <;>
      · rw [classifyNodesPerBoundaryCondition, List.mem_filter]
        rintro ⟨-, h⟩
        have h2 := of_decide_eq_true h
        rw [hbc] at h2
        exact absurd h2 (by decide)
  · intro p hp
    rw [classifyNodesPerBoundaryCondition, List.mem_filter] at hp
    have hbc := of_decide_eq_true hp.2
    rw [classifyNodesPerBoundaryCondition, List.mem_filter]
    rintro ⟨-, h⟩
    have h2 := of_decide_eq_true h
    rw [hbc] at h2
    exact absurd h2 (by decide)
  · intro p hp hbc
    rcases hbc with h | h | h
    · left
      rw [classifyNodesPerBoundaryCondition, List.mem_filter]
      exact ⟨hp, by simp [h]⟩
    · right; left
      rw [classifyNodesPerBoundaryCondition, List.mem_filter]
      exact ⟨hp, by simp [h]⟩
    · right; right
      rw [classifyNodesPerBoundaryCondition, List.mem_filter]
      exact ⟨hp, by simp [h]⟩
  · intro p _ h1 h2 h3
    refine ⟨?_, ?_, ?_⟩
    · rw [classifyNodesPerBoundaryCondition, List.mem_filter]
      rintro ⟨-, h⟩
      exact h1 (of_decide_eq_true h)
    · rw [classifyNodesPerBoundaryCondition, List.mem_filter]
      rintro ⟨-, h⟩
      exact h2 (of_decide_eq_true h)
    · rw [classifyNodesPerBoundaryCondition, List.mem_filter]
      rintro ⟨-, h⟩
      exact h3 (of_decide_eq_true h)

/-- C7 counterexample: with step 1/2 and duration 1 the int64 stamp grid has
three stamps 0, 0, 1·int64(1/2) = 0: consecutive stamps do not differ by the
step, though the step is positive and the duration non-negative. -/
theorem time_grid_noninteger_step_counterexample :
    (0 : ℚ) < 1/2
    ∧ (0 : ℚ) ≤ 1
    ∧ (TimeData.init (1/2) 1).stampsNum = 3
    ∧ (TimeData.init (1/2) 1).stamps 0 = 0
    ∧ (TimeData.init (1/2) 1).stamps 1 = 0
    ∧ (((TimeData.init (1/2) 1).stamps 1 : ℚ) - ((TimeData.init (1/2) 1).stamps 0 : ℚ)
        ≠ (TimeData.init (1/2) 1).step) := by
  have htr : truncQ (1/2 : ℚ) = 0 := by
    rw [truncQ, if_pos (by norm_num), Int.floor_eq_iff]
    norm_num
  refine ⟨by norm_num, by norm_num, ?_, ?_, ?_, ?_⟩
  · show (⌈((1 : ℚ) + 1/2) / (1/2)⌉).toNat = 3
    rw [show ((1 : ℚ) + 1/2) / (1/2) = ((3 : ℤ) : ℚ) from by norm_num, Int.ceil_intCast]
    rfl
  · show (0 : ℤ) * truncQ (1/2) = 0
    rw [htr]
    norm_num
  · show (1 : ℤ) * truncQ (1/2) = 0
    rw [htr]
    norm_num
  · simp only [TimeData.init]
    rw [htr]
    norm_num

/-- C7 (amended): for integer step > 0 and integer duration >= 0 the grid
starts at stamp 0, consecutive stamps differ by exactly the step, the final
stamp is at or beyond the duration and equals it exactly when the duration is a
multiple of the step, and the exposed count indexes the stamps 0..count-1. -/
theorem time_grid_integer_inputs (s d : ℕ) (hs : 0 < s) :
    (TimeData.init (s : ℚ) (d : ℚ)).step = (s : ℚ)
    ∧ (TimeData.init (s : ℚ) (d : ℚ)).stamps 0 = 0
    ∧ (∀ i : ℕ, (TimeData.init (s : ℚ) (d : ℚ)).stamps (i + 1)
        - (TimeData.init (s : ℚ) (d : ℚ)).stamps i = (s : ℤ))
    ∧ 1 ≤ (TimeData.init (s : ℚ) (d : ℚ)).stampsNum
    ∧ (d : ℤ) ≤ (TimeData.init (s : ℚ) (d : ℚ)).stamps
        ((TimeData.init (s : ℚ) (d : ℚ)).stampsNum - 1)
    ∧ ((TimeData.init (s : ℚ) (d : ℚ)).stamps
        ((TimeData.init (s : ℚ) (d : ℚ)).stampsNum - 1) = (d : ℤ) ↔ s ∣ d)
    ∧ (TimeData.init (s : ℚ) (d : ℚ)).stampsIdx
        = List.range (TimeData.init (s : ℚ) (d : ℚ)).stampsNum
    ∧ (TimeData.init (s : ℚ) (d : ℚ)).stampsIdx.length
        = (TimeData.init (s : ℚ) (d : ℚ)).stampsNum := by
  have hsne : (s : ℚ) ≠ 0 := Nat.cast_ne_zero.mpr hs.ne'
  have htr : truncQ (s : ℚ) = (s : ℤ) := by
    rw [truncQ, if_pos (by positivity)]
    exact_mod_cast Int.floor_natCast s
  have hstamp : ∀ i : ℕ,
      (TimeData.init (s : ℚ) (d : ℚ)).stamps i = (i : ℤ) * (s : ℤ) := by
    intro i
    rw [TimeData.init, htr]
  have hdqr : d = s * (d / s) + d % s := (Nat.div_add_mod d s).symm
  have hrs : d % s < s := Nat.mod_lt d hs
  have hdQ : (d : ℚ) = (s : ℚ) * ((d / s : ℕ) : ℚ) + ((d % s : ℕ) : ℚ) := by
    exact_mod_cast congrArg (fun x : ℕ => (x : ℚ)) hdqr
  have hkey : ((d : ℚ) + (s : ℚ)) / (s : ℚ)
      = ((d % s : ℕ) : ℚ) / (s : ℚ) + ((((d / s : ℕ) : ℤ) + 1 : ℤ) : ℚ) := by
    rw [hdQ, Int.cast_add, Int.cast_natCast, Int.cast_one]
    field_simp
    ring
  have hceilr : ⌈((d % s : ℕ) : ℚ) / (s : ℚ)⌉ = if d % s = 0 then 0 else 1 := by
    have hsQ : (0 : ℚ) < (s : ℚ) := by exact_mod_cast hs
    split_ifs with h
    · simp [h]
    · rw [Int.ceil_eq_iff]
      have h0 : (0 : ℚ) < ((d % s : ℕ) : ℚ) := by
        exact_mod_cast Nat.pos_of_ne_zero h
      constructor
      · norm_num
        positivity
      · rw [show ((1 : ℤ) : ℚ) = 1 from by norm_num, div_le_one hsQ]
        exact_mod_cast hrs.le
  have hceil : ⌈((d : ℚ) + (s : ℚ)) / (s : ℚ)⌉
      = (if d % s = 0 then 0 else 1) + (((d / s : ℕ) : ℤ) + 1) := by
    rw [hkey, Int.ceil_add_int, hceilr]
  have hnum : (TimeData.init (s : ℚ) (d : ℚ)).stampsNum
      = if d % s = 0 then d / s + 1 else d / s + 2 := by
    show (⌈((d : ℚ) + (s : ℚ)) / (s : ℚ)⌉).toNat = _
    rw [hceil]
    split_ifs with h
    · rw [show ((0 : ℤ) + (((d / s : ℕ) : ℤ) + 1)) = ((d / s + 1 : ℕ) : ℤ) from by
        push_cast; ring, Int.toNat_natCast]
    · rw [show ((1 : ℤ) + (((d / s : ℕ) : ℤ) + 1)) = ((d / s + 2 : ℕ) : ℤ) from by
        push_cast; ring, Int.toNat_natCast]
  have hdZ : (d : ℤ) = (s : ℤ) * ((d / s : ℕ) : ℤ) + ((d % s : ℕ) : ℤ) := by
    exact_mod_cast congrArg (fun x : ℕ => (x : ℤ)) hdqr
  refine ⟨rfl, by rw [hstamp]; simp, fun i => by rw [hstamp, hstamp]; push_cast; ring,
    ?_, ?_, ?_, rfl, List.length_range _⟩
  · rw [hnum]
    split_ifs <;> exact Nat.succ_le_succ (Nat.zero_le _)
  · rw [hnum]
    split_ifs with h
    · rw [show d / s + 1 - 1 = d / s from rfl, hstamp]
      have h0 : ((d % s : ℕ) : ℤ) = 0 := by exact_mod_cast h
      have hc : (s : ℤ) * ((d / s : ℕ) : ℤ) = ((d / s : ℕ) : ℤ) * (s : ℤ) :=
        mul_comm _ _
      rw [hdZ, h0]
      linarith [hc]
    · rw [show d / s + 2 - 1 = d / s + 1 from rfl, hstamp]
      have hrlt : ((d % s : ℕ) : ℤ) < (s : ℤ) := by exact_mod_cast hrs
      have hc : (((d / s : ℕ) : ℤ) + 1) * (s : ℤ)
          = (s : ℤ) * ((d / s : ℕ) : ℤ) + (s : ℤ) := by ring
      rw [hdZ]
      push_cast
      linarith [hc, hrlt]
  · rw [hnum]
    split_ifs with h
    · rw [show d / s + 1 - 1 = d / s from rfl, hstamp]
      have h0 : ((d % s : ℕ) : ℤ) = 0 := by exact_mod_cast h
      constructor
      · intro _
        exact Nat.dvd_of_mod_eq_zero h
      · intro _
        rw [hdZ, h0]
        ring
    · rw [show d / s + 2 - 1 = d / s + 1 from rfl, hstamp]
      have hrlt : ((d % s : ℕ) : ℤ) < (s : ℤ) := by exact_mod_cast hrs
      have hr0 : (0 : ℤ) < ((d % s : ℕ) : ℤ) := by
        exact_mod_cast Nat.pos_of_ne_zero h
      constructor
      · intro heq
        exfalso
        rw [hdZ] at heq
        push_cast at heq
        nlinarith
      · intro hdvd
        exact absurd (Nat.dvd_iff_mod_eq_zero.mp hdvd) h

/-- Witness for the amended C7 at step 2, duration 5: stamps 0, 2, 4, 6 with
the final stamp 6 at or beyond the duration 5. -/
theorem time_grid_integer_inputs_witness :
    (TimeData.init ((2 : ℕ) : ℚ) ((5 : ℕ) : ℚ)).stamps 0 = 0
    ∧ (TimeData.init ((2 : ℕ) : ℚ) ((5 : ℕ) : ℚ)).stamps 2
        - (TimeData.init ((2 : ℕ) : ℚ) ((5 : ℕ) : ℚ)).stamps 1 = ((2 : ℕ) : ℤ)
    ∧ 1 ≤ (TimeData.init ((2 : ℕ) : ℚ) ((5 : ℕ) : ℚ)).stampsNum
    ∧ ((5 : ℕ) : ℤ) ≤ (TimeData.init ((2 : ℕ) : ℚ) ((5 : ℕ) : ℚ)).stamps
        ((TimeData.init ((2 : ℕ) : ℚ) ((5 : ℕ) : ℚ)).stampsNum - 1) := by
  have h := time_grid_integer_inputs 2 5 (by norm_num)
  exact ⟨h.2.1, h.2.2.1 1, h.2.2.2.1, h.2.2.2.2.1⟩

theorem foldlM_err_head {E A B : Type} (f : A → B → Except E A) (e : E)
    (q : B) (l : List B) (a : A) (hf : f a q = .error e) :
    (q :: l).foldlM f a = .error e := by
  rw [List.foldlM_cons, hf]
  rfl

theorem except_bind_ok {E α β : Type} (ma : Except E α) (f : α → Except E β)
    (out : β) (h : (ma >>= f) = .ok out) : ∃ a, ma = .ok a ∧ f a = .ok out := by
  rcases ma with e | a
  · rw [show ((Except.error e : Except E α) >>= f) = .error e from rfl] at h
    cases h
  · exact ⟨a, rfl, h⟩

theorem foldl_pair_frame {α : Type} (f : (Mat × Vec) → α → Mat × Vec)
    (i : ℕ) (L : List α) :
    ∀ cb : Mat × Vec,
      (∀ a ∈ L, ∀ cb' : Mat × Vec,
        (∀ j, (f cb' a).1 i j = cb'.1 i j) ∧ (f cb' a).2 i = cb'.2 i) →
      (∀ j, (L.foldl f cb).1 i j = cb.1 i j) ∧ (L.foldl f cb).2 i = cb.2 i := by
  induction L with
  | nil => intro cb _; exact ⟨fun _ => rfl, rfl⟩
  | cons a L ih =>
    intro cb hstep
    have h1 := hstep a (List.mem_cons_self a L) cb
    have h2 := ih (f cb a) (fun a' ha' => hstep a' (List.mem_cons_of_mem a ha'))
    exact ⟨fun j => (h2.1 j).trans (h1.1 j), h2.2.trans h1.2⟩

theorem foldlM_pair_frame {α : Type}
    (f : (Mat × Vec) → α → Except ThermalError (Mat × Vec)) (i : ℕ) (L : List α) :
    ∀ cb out : Mat × Vec, List.foldlM f cb L = .ok out →
      (∀ a ∈ L, ∀ cb' out' : Mat × Vec, f cb' a = .ok out' →
        (∀ j, out'.1 i j = cb'.1 i j) ∧ out'.2 i = cb'.2 i) →
      (∀ j, out.1 i j = cb.1 i j) ∧ out.2 i = cb.2 i := by
  induction L with
  | nil =>
    intro cb out h _
    have : cb = out := by
      simpa [List.foldlM, pure, Except.pure] using h
    rw [this]
    exact ⟨fun _ => rfl, rfl⟩
  | cons a L ih =>
    intro cb out h hstep
    rw [List.foldlM_cons] at h
    obtain ⟨cb1, e1, h⟩ := except_bind_ok _ _ _ h
    have h1 := hstep a (List.mem_cons_self a L) cb cb1 e1
    have h2 := ih cb1 out h (fun a' ha' => hstep a' (List.mem_cons_of_mem a ha'))
    exact ⟨fun j => (h2.1 j).trans (h1.1 j), h2.2.trans h1.2⟩

theorem addRowWithSoilBc_frame (sim : ThermalSimulator) (t id : ℕ)
    (node : NodeData) (acc : ℚ) (temps : ℕ → ℕ → ℚ) (C : Mat) (b : Vec)
    (out : Mat × Vec) (h : addRowWithSoilBc sim t id node acc temps C b = .ok out)
    {i : ℕ} (hi1 : i ≠ id) (hi2 : i ≠ id + sim.numNodes) :
    (∀ j, out.1 i j = C i j) ∧ out.2 i = b i := by
  rcases hw : sim.weather with _ | w
  · simp only [addRowWithSoilBc, hw] at h
    cases h
  · simp only [addRowWithSoilBc, hw] at h
    obtain ⟨r, hr, h⟩ := except_bind_ok _ _ _ h
    simp only [Except.ok.injEq] at h
    rw [← h]
    have hs := modifySoilTemperatureRows_frame sim t id node r.1 r.2
      (w.soilTemperatureAt (sim.stampQ t)) 0
      (modifyWaterTemperatureRows sim t id node r.1 acc temps C b).1
      (modifyWaterTemperatureRows sim t id node r.1 acc temps C b).2 hi2
    have hwf := modifyWaterTemperatureRows_frame sim t id node r.1 acc temps C b hi1
    exact ⟨fun j => (hs.1 j).trans (hwf.1 j), hs.2.trans hwf.2⟩

theorem addRowWithAirBc_frame (sim : ThermalSimulator) (t id : ℕ)
    (node : NodeData) (acc : ℚ) (temps : ℕ → ℕ → ℚ) (C : Mat) (b : Vec)
    (out : Mat × Vec) (h : addRowWithAirBc sim t id node acc temps C b = .ok out)
    {i : ℕ} (hi1 : i ≠ id) (hi2 : i ≠ id + sim.numNodes) :
    (∀ j, out.1 i j = C i j) ∧ out.2 i = b i := by
  rcases hw : sim.weather with _ | w
  · simp only [addRowWithAirBc, hw] at h
    cases h
  · simp only [addRowWithAirBc, hw] at h
    obtain ⟨r, hr, h⟩ := except_bind_ok _ _ _ h
    simp only [Except.ok.injEq] at h
    rw [← h]
    have hs := modifySoilTemperatureRows_frame sim t id node r.1 r.2
      (w.airTemperatureAt (sim.stampQ t))
      (w.globalSolarRadiationAt (sim.stampQ t) * node.soilAirInterfaceArea
        * node.soilProps.absorptivityAt (sim.stampQ t))
      (modifyWaterTemperatureRows sim t id node r.1 acc temps C b).1
      (modifyWaterTemperatureRows sim t id node r.1 acc temps C b).2 hi2
    have hwf := modifyWaterTemperatureRows_frame sim t id node r.1 acc temps C b hi1
    exact ⟨fun j => (hs.1 j).trans (hwf.1 j), hs.2.trans hwf.2⟩

theorem enumFrom_bounds (l : List NodeData) :
    ∀ (k : ℕ) (p : ℕ × NodeData), p ∈ enumFrom k l →
      k ≤ p.1 ∧ p.1 < k + l.length := by
  induction l with
  | nil => intro k p h; cases h
  | cons n l ih =>
    intro k p h
    rcases List.mem_cons.mp h with rfl | h
    · simp
    · have := ih (k + 1) p h
      rw [List.length_cons]
      omega

theorem enumFrom_get? (l : List NodeData) :
    ∀ (k : ℕ) (p : ℕ × NodeData), p ∈ enumFrom k l →
      l.get? (p.1 - k) = some p.2 := by
  induction l with
  | nil => intro k p h; cases h
  | cons n l ih =>
    intro k p h
    rcases List.mem_cons.mp h with rfl | h
    · simp
    · have hb := enumFrom_bounds l (k + 1) p h
      have hg := ih (k + 1) p h
      rw [show p.1 - k = (p.1 - (k + 1)) + 1 from by omega]
      simpa using hg

theorem enumFrom_ids_nodup (l : List NodeData) :
    ∀ k : ℕ, ((enumFrom k l).map Prod.fst).Nodup := by
  induction l with
  | nil => intro k; simp [enumFrom]
  | cons n l ih =>
    intro k
    rw [enumFrom, List.map_cons, List.nodup_cons]
    refine ⟨?_, ih (k + 1)⟩
    intro hmem
    rcases List.mem_map.mp hmem with ⟨q, hq, hq1⟩
    have := enumFrom_bounds l (k + 1) q hq
    omega

theorem enumFrom_inj (l : List NodeData) :
    ∀ (k : ℕ) (p q : ℕ × NodeData), p ∈ enumFrom k l → q ∈ enumFrom k l →
      p.1 = q.1 → p = q := by
  induction l with
  | nil => intro k p q h; cases h
  | cons n l ih =>
    intro k p q hp hq hpq
    rcases List.mem_cons.mp hp with rfl | hp <;> rcases List.mem_cons.mp hq with rfl | hq
    · rfl
    · have := enumFrom_bounds l (k + 1) q hq
      omega
    · have := enumFrom_bounds l (k + 1) p hp
      omega
    · exact ih (k + 1) p q hp hq hpq

theorem find?_by_id (l : List (ℕ × NodeData)) (m : ℕ) (p : ℕ × NodeData) :
    p ∈ l → (l.map Prod.fst).Nodup → p.1 = m →
      l.find? (fun q => q.1 = m) = some p := by
  induction l with
  | nil => intro h; cases h
  | cons a l ih =>
    intro hmem hnd hpm
    rw [List.map_cons, List.nodup_cons] at hnd
    rcases List.mem_cons.mp hmem with rfl | hmem
    · exact List.find?_cons_of_pos _ (by simp [hpm])
    · have ha : ¬(a.1 = m) := by
        intro haeq
        exact hnd.1 (List.mem_map.mpr ⟨p, hmem, by omega⟩)
      rw [List.find?_cons_of_neg _ (by simp [ha])]
      exact ih hmem hnd.2 hpm

theorem find?_by_id_add (l : List (ℕ × NodeData)) (n m : ℕ) (p : ℕ × NodeData) :
    p ∈ l → (l.map Prod.fst).Nodup → p.1 = m →
      l.find? (fun q => q.1 + n = m + n) = some p := by
  induction l with
  | nil => intro h; cases h
  | cons a l ih =>
    intro hmem hnd hpm
    rw [List.map_cons, List.nodup_cons] at hnd
    rcases List.mem_cons.mp hmem with rfl | hmem
    · exact List.find?_cons_of_pos _ (by simp [hpm])
    · have ha : ¬(a.1 + n = m + n) := by
        intro haeq
        exact hnd.1 (List.mem_map.mpr ⟨p, hmem, by omega⟩)
      rw [List.find?_cons_of_neg _ (by simp [ha])]
      exact ih hmem hnd.2 hpm

theorem assembleMatrices_preserves_row (sim : ThermalSimulator) (parts : Partitions)
    (st : SimState) (t : ℕ) (C : Mat) (b : Vec)
    (h : assembleMatrices sim parts st t = .ok (C, b)) (i : ℕ)
    (h1 : ∀ p ∈ parts.junctions.pipeBc, i ≠ p.1)
    (h2 : ∀ p ∈ parts.junctions.soilBc, i ≠ p.1 ∧ i ≠ p.1 + sim.numNodes)
    (h3 : ∀ p ∈ parts.junctions.airBc, i ≠ p.1 ∧ i ≠ p.1 + sim.numNodes)
    (h4 : ∀ p ∈ parts.tanks.pipeBc, i ≠ p.1)
    (h5 : ∀ p ∈ parts.tanks.soilBc, i ≠ p.1 ∧ i ≠ p.1 + sim.numNodes)
    (h6 : ∀ p ∈ parts.tanks.airBc, i ≠ p.1 ∧ i ≠ p.1 + sim.numNodes)
    (h7 : ∀ p ∈ parts.reservoirs.soilBc, i ≠ p.1 + sim.numNodes)
    (h8 : ∀ p ∈ parts.reservoirs.airBc, i ≠ p.1 + sim.numNodes) :
    (∀ j, C i j = if i = j then 1 else 0)
    ∧ b i = (match parts.pipeBcAll.find? (fun p => p.1 + sim.numNodes = i) with
        | some p => st.soilTemperatures t p.1
        | none =>
          if sim.numJunctions + sim.numTanks ≤ i ∧ i < sim.numNodes
          then st.temperatures t i else 0) := by
  simp only [assembleMatrices] at h
  obtain ⟨cb2, e2, h⟩ := except_bind_ok _ _ _ h
  obtain ⟨cb3, e3, h⟩ := except_bind_ok _ _ _ h
  obtain ⟨cb4, e4, h⟩ := except_bind_ok _ _ _ h
  obtain ⟨cb5, e5, h⟩ := except_bind_ok _ _ _ h
  obtain ⟨cb6, e6, h⟩ := except_bind_ok _ _ _ h
  obtain ⟨cb7, e7, h⟩ := except_bind_ok _ _ _ h
  obtain ⟨cb8, e8, h⟩ := except_bind_ok _ _ _ h
  simp only [Except.ok.injEq] at h
  subst h
  have F8 := foldlM_pair_frame _ i _ _ _ e8 (by
    intro a ha cb' out' hstep
    rcases hw : sim.weather with _ | w
    · simp only [hw] at hstep
      cases hstep
    · simp only [hw] at hstep
      obtain ⟨r, hr, hstep⟩ := except_bind_ok _ _ _ hstep
      simp only [Except.ok.injEq] at hstep
      rw [← hstep]
      exact modifySoilTemperatureRows_frame sim t a.1 a.2 r.1 r.2 _ _ cb'.1 cb'.2
        (h8 a ha))
  have F7 := foldlM_pair_frame _ i _ _ _ e7 (by
    intro a ha cb' out' hstep
    rcases hw : sim.weather with _ | w
    · simp only [hw] at hstep
      cases hstep
    · simp only [hw] at hstep
      obtain ⟨r, hr, hstep⟩ := except_bind_ok _ _ _ hstep
      simp only [Except.ok.injEq] at hstep
      rw [← hstep]
      exact modifySoilTemperatureRows_frame sim t a.1 a.2 r.1 r.2 _ _ cb'.1 cb'.2
        (h7 a ha))
  have F6 := foldlM_pair_frame _ i _ _ _ e6 (by
    intro a ha cb' out' hstep
    obtain ⟨acc, hacc, hstep⟩ := except_bind_ok _ _ _ hstep
    exact addRowWithAirBc_frame sim t a.1 a.2 acc st.temperatures cb'.1 cb'.2 out'
      hstep (h6 a ha).1 (h6 a ha).2)
  have F5 := foldlM_pair_frame _ i _ _ _ e5 (by
    intro a ha cb' out' hstep
    obtain ⟨acc, hacc, hstep⟩ := except_bind_ok _ _ _ hstep
    exact addRowWithSoilBc_frame sim t a.1 a.2 acc st.temperatures cb'.1 cb'.2 out'
      hstep (h5 a ha).1 (h5 a ha).2)
  have F4 := foldlM_pair_frame _ i _ _ _ e4 (by
    intro a ha cb' out' hstep
    obtain ⟨acc, hacc, hstep⟩ := except_bind_ok _ _ _ hstep
    simp only [Except.ok.injEq] at hstep
    rw [← hstep]
    simp only [addRowWithPipeBc]
    exact modifyWaterTemperatureRows_frame sim t a.1 a.2 _ acc st.temperatures
      cb'.1 cb'.2 (h4 a ha))
  have F3 := foldlM_pair_frame _ i _ _ _ e3 (by
    intro a ha cb' out' hstep
    exact addRowWithAirBc_frame sim t a.1 a.2 0 st.temperatures cb'.1 cb'.2 out'
      hstep (h3 a ha).1 (h3 a ha).2)
  have F2 := foldlM_pair_frame _ i _ _ _ e2 (by
    intro a ha cb' out' hstep
    exact addRowWithSoilBc_frame sim t a.1 a.2 0 st.temperatures cb'.1 cb'.2 out'
      hstep (h2 a ha).1 (h2 a ha).2)
  have F1 := foldl_pair_frame
    (fun cb (p : ℕ × NodeData) =>
      addRowWithPipeBc sim t p.1 p.2 0 st.temperatures cb.1 cb.2) i
    parts.junctions.pipeBc
    ((fun i j => if i = j then (1 : ℚ) else 0), fun k =>
      match parts.pipeBcAll.find? (fun p => p.1 + sim.numNodes = k) with
      | some p => st.soilTemperatures t p.1
      | none =>
        if sim.numJunctions + sim.numTanks ≤ k ∧ k < sim.numNodes
        then st.temperatures t k else (0 : ℚ))
    (by
      intro a ha cb'
      simp only [addRowWithPipeBc]
      exact modifyWaterTemperatureRows_frame sim t a.1 a.2 _ 0 st.temperatures
        cb'.1 cb'.2 (h1 a ha))
  constructor
  · intro j
    exact (((((((F8.1 j).trans (F7.1 j)).trans (F6.1 j)).trans (F5.1 j)).trans
      (F4.1 j)).trans (F3.1 j)).trans (F2.1 j)).trans (F1.1 j)
  · exact ((((((F8.2.trans F7.2).trans F6.2).trans F5.2).trans
      F4.2).trans F3.2).trans F2.2).trans F1.2

theorem filter_enumFrom_ids_nodup (l : List NodeData) (k : ℕ)
    (f : ℕ × NodeData → Bool) :
    (((enumFrom k l).filter f).map Prod.fst).Nodup :=
  List.Nodup.sublist (List.Sublist.map Prod.fst (List.filter_sublist _))
    (enumFrom_ids_nodup l k)

theorem mkPartitions_pipeBcAll_ids_nodup (sim : ThermalSimulator) :
    ((mkPartitions sim).pipeBcAll.map Prod.fst).Nodup := by
  have bnd : ∀ (k : ℕ) (l : List NodeData) (f : ℕ × NodeData → Bool) (a : ℕ),
      a ∈ (((enumFrom k l).filter f).map Prod.fst) → k ≤ a ∧ a < k + l.length := by
    intro k l f a ha
    rcases List.mem_map.mp ha with ⟨p, hp, rfl⟩
    exact enumFrom_bounds l k p (List.mem_of_mem_filter hp)
  have hJ : sim.numJunctions = sim.junctions.length := rfl
  have hT : sim.numTanks = sim.tanks.length := rfl
  have hN : sim.numNodes
      = sim.numJunctions + sim.numTanks + sim.reservoirs.length := rfl
  rw [Partitions.pipeBcAll, mkPartitions]
  simp only [classifyNodesPerBoundaryCondition]
  rw [List.map_append, List.map_append]
  refine List.Nodup.append (List.Nodup.append ?_ ?_ ?_) ?_ ?_
  · exact filter_enumFrom_ids_nodup _ _ _
  · exact filter_enumFrom_ids_nodup _ _ _
  · intro a ha hb
    have h1 := bnd _ _ _ a ha
    have h2 := bnd _ _ _ a hb
    omega
  · exact filter_enumFrom_ids_nodup _ _ _
  · intro a ha hb
    have h2 := bnd _ _ _ a hb
    rcases List.mem_append.mp ha with ha | ha
    · have h1 := bnd _ _ _ a ha
      omega
    · have h1 := bnd _ _ _ a ha
      omega

/-- C4: after the per-timestep assembly, every reservoir's water row of the
coefficient matrix is still the identity row with b the reservoir's prescribed
temperature at time t, and every pipe-BC node's soil row is still the identity
row with b that node's own soil-property temperature series at time t. -/
theorem dirichlet_rows_left_identity (sim : ThermalSimulator) (st : SimState)
    (t : ℕ) (C : Mat) (b : Vec)
    (h : assembleMatrices sim (mkPartitions sim)
      (refreshState sim (mkPartitions sim).pipeBcAll st t) t = .ok (C, b)) :
    (∀ (k : ℕ) (node : NodeData),
      (k, node) ∈ enumFrom (sim.numJunctions + sim.numTanks) sim.reservoirs →
        (∀ j, C k j = if k = j then 1 else 0)
        ∧ b k = node.temperatureAt (sim.stampQ t))
    ∧ (∀ p ∈ (mkPartitions sim).pipeBcAll,
        (∀ j, C (p.1 + sim.numNodes) j = if p.1 + sim.numNodes = j then 1 else 0)
        ∧ b (p.1 + sim.numNodes) = p.2.soilProps.temperatureAt (sim.stampQ t)) := by
  have hNdef : sim.numNodes
      = sim.numJunctions + sim.numTanks + sim.reservoirs.length := rfl
  have hJdef : sim.numJunctions = sim.junctions.length := rfl
  have hTdef : sim.numTanks = sim.tanks.length := rfl
  have hJP : ∀ q ∈ (mkPartitions sim).junctions.pipeBc,
      q.1 < sim.numJunctions ∧ q.2.thermalBC = "pipe"
        ∧ q ∈ enumFrom 0 sim.junctions := by
    intro q hq
    rw [mkPartitions] at hq
    simp only [classifyNodesPerBoundaryCondition] at hq
    rw [List.mem_filter] at hq
    have := enumFrom_bounds sim.junctions 0 q hq.1
    exact ⟨by omega, of_decide_eq_true hq.2, hq.1⟩
  have hJS : ∀ q ∈ (mkPartitions sim).junctions.soilBc,
      q.1 < sim.numJunctions ∧ q.2.thermalBC = "soil"
        ∧ q ∈ enumFrom 0 sim.junctions := by
    intro q hq
    rw [mkPartitions] at hq
    simp only [classifyNodesPerBoundaryCondition] at hq
    rw [List.mem_filter] at hq
    have := enumFrom_bounds sim.junctions 0 q hq.1
    exact ⟨by omega, of_decide_eq_true hq.2, hq.1⟩
  have hJA : ∀ q ∈ (mkPartitions sim).junctions.airBc,
      q.1 < sim.numJunctions ∧ q.2.thermalBC = "air"
        ∧ q ∈ enumFrom 0 sim.junctions := by
    intro q hq
    rw [mkPartitions] at hq
    simp only [classifyNodesPerBoundaryCondition] at hq
    rw [List.mem_filter] at hq
    have := enumFrom_bounds sim.junctions 0 q hq.1
    exact ⟨by omega, of_decide_eq_true hq.2, hq.1⟩
  have hTP : ∀ q ∈ (mkPartitions sim).tanks.pipeBc,
      sim.numJunctions ≤ q.1 ∧ q.1 < sim.numJunctions + sim.numTanks
        ∧ q.2.thermalBC = "pipe" ∧ q ∈ enumFrom sim.numJunctions sim.tanks := by
    intro q hq
    rw [mkPartitions] at hq
    simp only [classifyNodesPerBoundaryCondition] at hq
    rw [List.mem_filter] at hq
    have := enumFrom_bounds sim.tanks sim.numJunctions q hq.1
    exact ⟨by omega, by omega, of_decide_eq_true hq.2, hq.1⟩
  have hTS : ∀ q ∈ (mkPartitions sim).tanks.soilBc,
      sim.numJunctions ≤ q.1 ∧ q.1 < sim.numJunctions + sim.numTanks
        ∧ q.2.thermalBC = "soil" ∧ q ∈ enumFrom sim.numJunctions sim.tanks := by
    intro q hq
    rw [mkPartitions] at hq
    simp only [classifyNodesPerBoundaryCondition] at hq
    rw [List.mem_filter] at hq
    have := enumFrom_bounds sim.tanks sim.numJunctions q hq.1
    exact ⟨by omega, by omega, of_decide_eq_true hq.2, hq.1⟩
  have hTA : ∀ q ∈ (mkPartitions sim).tanks.airBc,
      sim.numJunctions ≤ q.1 ∧ q.1 < sim.numJunctions + sim.numTanks
        ∧ q.2.thermalBC = "air" ∧ q ∈ enumFrom sim.numJunctions sim.tanks := by
    intro q hq
    rw [mkPartitions] at hq
    simp only [classifyNodesPerBoundaryCondition] at hq
    rw [List.mem_filter] at hq
    have := enumFrom_bounds sim.tanks sim.numJunctions q hq.1
    exact ⟨by omega, by omega, of_decide_eq_true hq.2, hq.1⟩
  have hRS : ∀ q ∈ (mkPartitions sim).reservoirs.soilBc,
      sim.numJunctions + sim.numTanks ≤ q.1 ∧ q.1 < sim.numNodes
        ∧ q.2.thermalBC = "soil"
        ∧ q ∈ enumFrom (sim.numJunctions + sim.numTanks) sim.reservoirs := by
    intro q hq
    rw [mkPartitions] at hq
    simp only [classifyNodesPerBoundaryCondition] at hq
    rw [List.mem_filter] at hq
    have := enumFrom_bounds sim.reservoirs (sim.numJunctions + sim.numTanks) q hq.1
    exact ⟨by omega, by omega, of_decide_eq_true hq.2, hq.1⟩
  have hRA : ∀ q ∈ (mkPartitions sim).reservoirs.airBc,
      sim.numJunctions + sim.numTanks ≤ q.1 ∧ q.1 < sim.numNodes
        ∧ q.2.thermalBC = "air"
        ∧ q ∈ enumFrom (sim.numJunctions + sim.numTanks) sim.reservoirs := by
    intro q hq
    rw [mkPartitions] at hq
    simp only [classifyNodesPerBoundaryCondition] at hq
    rw [List.mem_filter] at hq
    have := enumFrom_bounds sim.reservoirs (sim.numJunctions + sim.numTanks) q hq.1
    exact ⟨by omega, by omega, of_decide_eq_true hq.2, hq.1⟩
  have hPall : ∀ p ∈ (mkPartitions sim).pipeBcAll,
      p.1 < sim.numNodes ∧ p.2.thermalBC = "pipe"
        ∧ (p ∈ enumFrom 0 sim.junctions
          ∨ p ∈ enumFrom sim.numJunctions sim.tanks
          ∨ p ∈ enumFrom (sim.numJunctions + sim.numTanks) sim.reservoirs) := by
    intro p hp
    rw [Partitions.pipeBcAll] at hp
    rcases List.mem_append.mp hp with hp | hp
    rcases List.mem_append.mp hp with hp | hp
    · have := hJP p hp
      exact ⟨by omega, this.2.1, Or.inl this.2.2⟩
    · have := hTP p hp
      exact ⟨by omega, this.2.2.1, Or.inr (Or.inl this.2.2.2)⟩
    · rw [mkPartitions] at hp
      simp only [classifyNodesPerBoundaryCondition] at hp
      rw [List.mem_filter] at hp
      have := enumFrom_bounds sim.reservoirs (sim.numJunctions + sim.numTanks) p hp.1
      exact ⟨by omega, of_decide_eq_true hp.2, Or.inr (Or.inr hp.1)⟩
  have hsameg : ∀ (l : List NodeData) (k0 : ℕ) (pp qq : ℕ × NodeData),
      pp ∈ enumFrom k0 l → qq ∈ enumFrom k0 l →
        pp.2.thermalBC ≠ qq.2.thermalBC → pp.1 ≠ qq.1 := by
    intro l k0 pp qq hp hq hne heq
    exact hne (congrArg (fun r => r.2.thermalBC) (enumFrom_inj l k0 pp qq hp hq heq))
  constructor
  · intro k node hmem
    have hkb := enumFrom_bounds sim.reservoirs (sim.numJunctions + sim.numTanks)
      (k, node) hmem
    have hkN : k < sim.numNodes := by omega
    have frame := assembleMatrices_preserves_row sim (mkPartitions sim)
      (refreshState sim (mkPartitions sim).pipeBcAll st t) t C b h k
      (fun p hp => by have := hJP p hp; omega)
      (fun p hp => by have := hJS p hp; omega)
      (fun p hp => by have := hJA p hp; omega)
      (fun p hp => by have := hTP p hp; omega)
      (fun p hp => by have := hTS p hp; omega)
      (fun p hp => by have := hTA p hp; omega)
      (fun p hp => by have := hRS p hp; omega)
      (fun p hp => by have := hRA p hp; omega)
    refine ⟨frame.1, ?_⟩
    have hfind : (mkPartitions sim).pipeBcAll.find?
        (fun p => p.1 + sim.numNodes = k) = none := by
      rw [List.find?_eq_none]
      intro q hq
      simp only [decide_eq_true_eq]
      omega
    have hb := frame.2
    rw [hfind] at hb
    rw [if_pos ⟨by omega, hkN⟩] at hb
    rw [hb]
    simp only [refreshState]
    rw [if_pos (⟨trivial, by omega, hkN⟩ :
      (True ∧ sim.numJunctions + sim.numTanks ≤ k ∧ k < sim.numNodes))]
    have hget := enumFrom_get? sim.reservoirs (sim.numJunctions + sim.numTanks)
      (k, node) hmem
    simp only at hget
    rw [hget]
    rfl
  · intro p hp
    have hPa := hPall p hp
    have obNe : ∀ q : ℕ × NodeData, q.2.thermalBC ≠ "pipe" →
        (q ∈ enumFrom 0 sim.junctions ∨ q ∈ enumFrom sim.numJunctions sim.tanks
          ∨ q ∈ enumFrom (sim.numJunctions + sim.numTanks) sim.reservoirs) →
        p.1 ≠ q.1 := by
      intro q hbc hq heq
      rcases hPa.2.2 with hg | hg | hg <;> rcases hq with hq | hq | hq
      · exact hbc ((enumFrom_inj sim.junctions 0 p q hg hq heq) ▸ hPa.2.1)
      · have hb1 := enumFrom_bounds sim.junctions 0 p hg
        have hb2 := enumFrom_bounds sim.tanks sim.numJunctions q hq
        omega
      · have hb1 := enumFrom_bounds sim.junctions 0 p hg
        have hb2 := enumFrom_bounds sim.reservoirs
          (sim.numJunctions + sim.numTanks) q hq
        omega
      · have hb1 := enumFrom_bounds sim.tanks sim.numJunctions p hg
        have hb2 := enumFrom_bounds sim.junctions 0 q hq
        omega
      · exact hbc ((enumFrom_inj sim.tanks sim.numJunctions p q hg hq heq) ▸ hPa.2.1)
      · have hb1 := enumFrom_bounds sim.tanks sim.numJunctions p hg
        have hb2 := enumFrom_bounds sim.reservoirs
          (sim.numJunctions + sim.numTanks) q hq
        omega
      · have hb1 := enumFrom_bounds sim.reservoirs
          (sim.numJunctions + sim.numTanks) p hg
        have hb2 := enumFrom_bounds sim.junctions 0 q hq
        omega
      · have hb1 := enumFrom_bounds sim.reservoirs
          (sim.numJunctions + sim.numTanks) p hg
        have hb2 := enumFrom_bounds sim.tanks sim.numJunctions q hq
        omega
      · exact hbc ((enumFrom_inj sim.reservoirs (sim.numJunctions + sim.numTanks)
          p q hg hq heq) ▸ hPa.2.1)
    have frame := assembleMatrices_preserves_row sim (mkPartitions sim)
      (refreshState sim (mkPartitions sim).pipeBcAll st t) t C b h
      (p.1 + sim.numNodes)
      (fun q hq => by have := hJP q hq; omega)
      (fun q hq => by
        have hqd := hJS q hq
        have hne := obNe q (by rw [hqd.2.1]; decide) (Or.inl hqd.2.2)
        exact ⟨by omega, by omega⟩)
      (fun q hq => by
        have hqd := hJA q hq
        have hne := obNe q (by rw [hqd.2.1]; decide) (Or.inl hqd.2.2)
        exact ⟨by omega, by omega⟩)
      (fun q hq => by have := hTP q hq; omega)
      (fun q hq => by
        have hqd := hTS q hq
        have hne := obNe q (by rw [hqd.2.2.1]; decide) (Or.inr (Or.inl hqd.2.2.2))
        exact ⟨by omega, by omega⟩)
      (fun q hq => by
        have hqd := hTA q hq
        have hne := obNe q (by rw [hqd.2.2.1]; decide) (Or.inr (Or.inl hqd.2.2.2))
        exact ⟨by omega, by omega⟩)
      (fun q hq => by
        have hqd := hRS q hq
        have hne := obNe q (by rw [hqd.2.2.1]; decide) (Or.inr (Or.inr hqd.2.2.2))
        omega)
      (fun q hq => by
        have hqd := hRA q hq
        have hne := obNe q (by rw [hqd.2.2.1]; decide) (Or.inr (Or.inr hqd.2.2.2))
        omega)
    refine ⟨frame.1, ?_⟩
    have hnodupAll := mkPartitions_pipeBcAll_ids_nodup sim
    have hfind1 : (mkPartitions sim).pipeBcAll.find?
        (fun q => q.1 + sim.numNodes = p.1 + sim.numNodes) = some p :=
      find?_by_id_add (mkPartitions sim).pipeBcAll sim.numNodes p.1 p hp
        hnodupAll rfl
    have hb := frame.2
    rw [hfind1] at hb
    rw [hb]
    simp only [refreshState]
    rw [if_pos (trivial : True)]
    have hfind2 : (mkPartitions sim).pipeBcAll.find?
        (fun q => q.1 = p.1) = some p :=
      find?_by_id (mkPartitions sim).pipeBcAll p.1 p hp hnodupAll rfl
    rw [hfind2]

/-- Witness for C4 on the concrete network with one pipe-bc junction and one
reservoir at t = 1: assembly succeeds, reservoir row 1 is the identity row
with b 1 the prescribed reservoir temperature 15, and the junction's soil
row 2 is the identity row with b 2 the soil-property temperature 5. -/
theorem dirichlet_rows_left_identity_witness :
    ∃ C b, assembleMatrices simC4 (mkPartitions simC4)
      (refreshState simC4 (mkPartitions simC4).pipeBcAll
        (initializeMatrices simC4) 1) 1 = .ok (C, b)
    ∧ C 1 0 = 0 ∧ C 1 1 = 1 ∧ C 1 2 = 0 ∧ b 1 = 15
    ∧ C 2 0 = 0 ∧ C 2 2 = 1 ∧ b 2 = 5 := by
  have hA : assembleMatrices simC4 (mkPartitions simC4)
      (refreshState simC4 (mkPartitions simC4).pipeBcAll
        (initializeMatrices simC4) 1) 1
      = .ok ((exceptOkD (assembleMatrices simC4 (mkPartitions simC4)
          (refreshState simC4 (mkPartitions simC4).pipeBcAll
            (initializeMatrices simC4) 1) 1)
          ((fun i j => if i = j then 1 else 0), fun _ => 0)).1,
        (exceptOkD (assembleMatrices simC4 (mkPartitions simC4)
          (refreshState simC4 (mkPartitions simC4).pipeBcAll
            (initializeMatrices simC4) 1) 1)
          ((fun i j => if i = j then 1 else 0), fun _ => 0)).2) := rfl
  have h := dirichlet_rows_left_identity simC4 (initializeMatrices simC4) 1 _ _ hA
  have hm1 : ((1 : ℕ), nodeRE)
      ∈ enumFrom (simC4.numJunctions + simC4.numTanks) simC4.reservoirs := by
    have he : enumFrom (simC4.numJunctions + simC4.numTanks) simC4.reservoirs
        = [(1, nodeRE)] := rfl
    rw [he]
    exact List.mem_singleton.mpr rfl
  have h1 := h.1 1 nodeRE hm1
  have hjp : (mkPartitions simC4).pipeBcAll = [(0, nodeJP), (1, nodeRE)] := rfl
  have hm2 : ((0 : ℕ), nodeJP) ∈ (mkPartitions simC4).pipeBcAll := by
    rw [hjp]
    exact List.mem_cons_self _ _
  have h2 := h.2 (0, nodeJP) hm2
  refine ⟨_, _, hA, ?_, ?_, ?_, ?_, ?_, ?_, ?_⟩
  · rw [h1.1 0]
    norm_num
  · rw [h1.1 1]
    norm_num
  · rw [h1.1 2]
    norm_num
  · rw [h1.2]
    norm_num [nodeRE, mkNode]
  · have h20 := h2.1 0
    norm_num [simC4, ThermalSimulator.init, ThermalSimulator.numNodes,
      ThermalSimulator.numJunctions, ThermalSimulator.numTanks, wnC4] at h20
    exact h20
  · have h22 := h2.1 2
    norm_num [simC4, ThermalSimulator.init, ThermalSimulator.numNodes,
      ThermalSimulator.numJunctions, ThermalSimulator.numTanks, wnC4] at h22
    exact h22
  · have h2b := h2.2
    norm_num [simC4, ThermalSimulator.init, ThermalSimulator.numNodes,
      ThermalSimulator.numJunctions, ThermalSimulator.numTanks, wnC4,
      nodeJP, mkNode, spConst] at h2b
    exact h2b

theorem meshStep_spec (m : ℚ) (nm : String) (L : ℚ)
    (P Q : List (String × ℚ)) (n0 : ℕ)
    (hP : ∀ p ∈ P, p.1 ≠ nm) (hQ : ∀ p ∈ Q, p.1 ≠ nm) :
    meshStep m { pipes := P ++ (nm, L) :: Q, numNodes := n0 } (nm, L)
      = { pipes := P ++ (nm, L / (((⌊L / m⌋).toNat : ℚ) + 1))
            :: (Q ++ (List.range ((⌊L / m⌋).toNat)).map
              (fun i => (nm ++ "_" ++ toString ((⌊L / m⌋).toNat - i),
                L / (((⌊L / m⌋).toNat : ℚ) + 1)))),
          numNodes := n0 + (⌊L / m⌋).toNat } := by
  have h := splitLoop_invariant nm L ((⌊L / m⌋).toNat) P Q n0 hP hQ
    ((⌊L / m⌋).toNat) le_rfl
  rw [meshStep]
  dsimp only
  rw [h]
  have hL : (((⌊L / m⌋).toNat : ℚ) + 1 - ((⌊L / m⌋).toNat : ℚ)) * L
      / (((⌊L / m⌋).toNat : ℚ) + 1)
      = L / (((⌊L / m⌋).toNat : ℚ) + 1) := by
    ring
  rw [hL]

theorem meshFold_spec (m : ℚ) (todo : List (String × ℚ)) :
    ∀ cur : MeshNetwork,
      (∀ q ∈ todo, q ∈ cur.pipes) →
      ((cur.pipes.map Prod.fst
        ++ todo.flatMap (fun q => genNames q.1 ((⌊q.2 / m⌋).toNat))).Nodup) →
      ((todo.map Prod.fst).Nodup) →
      (todo.foldl (meshStep m) cur).numNodes
          = cur.numNodes + (todo.map (fun q => (⌊q.2 / m⌋).toNat)).sum
      ∧ ((todo.foldl (meshStep m) cur).pipes.map Prod.snd).sum
          = (cur.pipes.map Prod.snd).sum
      ∧ ∀ q ∈ todo,
          (todo.foldl (meshStep m) cur).pipes.find? (fun p => p.1 = q.1)
            = some (q.1, q.2 / (((⌊q.2 / m⌋).toNat : ℚ) + 1))
          ∧ ∀ i < (⌊q.2 / m⌋).toNat,
              (todo.foldl (meshStep m) cur).pipes.find?
                  (fun p => p.1 = q.1 ++ "_" ++ toString ((⌊q.2 / m⌋).toNat - i))
                = some (q.1 ++ "_" ++ toString ((⌊q.2 / m⌋).toNat - i),
                    q.2 / (((⌊q.2 / m⌋).toNat : ℚ) + 1)) := by
  induction todo with
  | nil =>
    intro cur _ _ _
    refine ⟨by simp, rfl, ?_⟩
    intro q hq
    cases hq
  | cons q todo ih =>
    intro cur h1 h2 h3
    obtain ⟨nm, L⟩ := q
    obtain ⟨pipes0, n0⟩ := cur
    obtain ⟨P, Q, hPQ⟩ := List.append_of_mem (h1 _ (List.mem_cons_self _ _))
    dsimp only at hPQ h1 h2 ⊢
    subst hPQ
    have hcn : ((P ++ (nm, L) :: Q).map Prod.fst).Nodup := h2.of_append_left
    have hmid : (P.map Prod.fst ++ nm :: Q.map Prod.fst).Nodup := by
      simpa using hcn
    have hnmPQ : nm ∉ P.map Prod.fst ++ Q.map Prod.fst :=
      (List.nodup_cons.mp (List.nodup_middle.mp hmid)).1
    have hP : ∀ p ∈ P, p.1 ≠ nm := by
      intro p hp he
      exact hnmPQ (List.mem_append_left _ (List.mem_map.mpr ⟨p, hp, he⟩))
    have hQ : ∀ p ∈ Q, p.1 ≠ nm := by
      intro p hp he
      exact hnmPQ (List.mem_append_right _ (List.mem_map.mpr ⟨p, hp, he⟩))
    rw [List.map_cons] at h3
    have h3c := List.nodup_cons.mp h3
    have hnmtodo : nm ∉ todo.map Prod.fst := h3c.1
    have h3t : (todo.map Prod.fst).Nodup := h3c.2
    rw [List.foldl_cons, meshStep_spec m nm L P Q n0 hP hQ]
    have hGfst : ((List.range ((⌊L / m⌋).toNat)).map
        (fun i => (nm ++ "_" ++ toString ((⌊L / m⌋).toNat - i),
          L / (((⌊L / m⌋).toNat : ℚ) + 1)))).map Prod.fst
        = genNames nm ((⌊L / m⌋).toNat) := by
      rw [genNames, List.map_map]
      rfl
    have h1t : ∀ q1 ∈ todo, q1 ∈ P ++ (nm, L / (((⌊L / m⌋).toNat : ℚ) + 1))
        :: (Q ++ (List.range ((⌊L / m⌋).toNat)).map
          (fun i => (nm ++ "_" ++ toString ((⌊L / m⌋).toNat - i),
            L / (((⌊L / m⌋).toNat : ℚ) + 1)))) := by
      intro q1 hq1
      have hq1c := h1 q1 (List.mem_cons_of_mem _ hq1)
      have hq1nm : q1.1 ≠ nm := by
        intro he
        exact hnmtodo (he ▸ List.mem_map.mpr ⟨q1, hq1, rfl⟩)
      rcases List.mem_append.mp hq1c with hl | hr
      · exact List.mem_append_left _ hl
      · rcases List.mem_cons.mp hr with heq | htl
        · exact absurd (congrArg Prod.fst heq) hq1nm
        · exact List.mem_append_right _
            (List.mem_cons_of_mem _ (List.mem_append_left _ htl))
    have h2t : (((P ++ (nm, L / (((⌊L / m⌋).toNat : ℚ) + 1))
        :: (Q ++ (List.range ((⌊L / m⌋).toNat)).map
          (fun i => (nm ++ "_" ++ toString ((⌊L / m⌋).toNat - i),
            L / (((⌊L / m⌋).toNat : ℚ) + 1))))).map Prod.fst)
        ++ todo.flatMap (fun q => genNames q.1 ((⌊q.2 / m⌋).toNat))).Nodup := by
      rw [List.map_append, List.map_cons, List.map_append, hGfst]
      rw [List.flatMap_cons] at h2
      rw [List.map_append, List.map_cons] at h2
      simp only [List.append_assoc, List.cons_append] at h2 ⊢
      exact h2
    obtain ⟨ihn, ihs, ihf⟩ := ih
      { pipes := P ++ (nm, L / (((⌊L / m⌋).toNat : ℚ) + 1))
          :: (Q ++ (List.range ((⌊L / m⌋).toNat)).map
            (fun i => (nm ++ "_" ++ toString ((⌊L / m⌋).toNat - i),
              L / (((⌊L / m⌋).toNat : ℚ) + 1)))),
        numNodes := n0 + (⌊L / m⌋).toNat } h1t h2t h3t
    have hk1 : (((⌊L / m⌋).toNat : ℚ) + 1) ≠ 0 := by positivity
    refine ⟨?_, ?_, ?_⟩
    · rw [ihn, List.map_cons, List.sum_cons]
      show n0 + (⌊L / m⌋).toNat + (todo.map (fun q => (⌊q.2 / m⌋).toNat)).sum
          = n0 + ((⌊L / m⌋).toNat + (todo.map (fun q => (⌊q.2 / m⌋).toNat)).sum)
      omega
    · rw [ihs]
      dsimp only
      rw [List.map_append, List.map_cons, List.map_append,
        List.sum_append, List.sum_cons, List.sum_append,
        List.map_append, List.map_cons, List.sum_append, List.sum_cons]
      have hGsnd : (((List.range ((⌊L / m⌋).toNat)).map
          (fun i => (nm ++ "_" ++ toString ((⌊L / m⌋).toNat - i),
            L / (((⌊L / m⌋).toNat : ℚ) + 1)))).map Prod.snd).sum
          = ((⌊L / m⌋).toNat : ℚ) * (L / (((⌊L / m⌋).toNat : ℚ) + 1)) := by
        rw [List.map_map]
        have : (Prod.snd ∘ fun i => ((nm ++ "_" ++ toString ((⌊L / m⌋).toNat - i),
            L / (((⌊L / m⌋).toNat : ℚ) + 1)) : String × ℚ))
            = fun _ => L / (((⌊L / m⌋).toNat : ℚ) + 1) := rfl
        rw [this, sum_map_constQ, List.length_range]
      rw [hGsnd]
      have hsplit : L / (((⌊L / m⌋).toNat : ℚ) + 1)
          + ((⌊L / m⌋).toNat : ℚ) * (L / (((⌊L / m⌋).toNat : ℚ) + 1)) = L := by
        field_simp
        ring
      have hq2 : ((nm, L) : String × ℚ).2 = L := rfl
      rw [hq2]
      linarith [hsplit]
    · intro q1 hq1
      rcases List.mem_cons.mp hq1 with heq | htl
      · subst heq
        have hnd1 : ((P ++ (nm, L / (((⌊L / m⌋).toNat : ℚ) + 1))
            :: (Q ++ (List.range ((⌊L / m⌋).toNat)).map
              (fun i => (nm ++ "_" ++ toString ((⌊L / m⌋).toNat - i),
                L / (((⌊L / m⌋).toNat : ℚ) + 1))))).map Prod.fst).Nodup :=
          h2t.of_append_left
        have hdisj : ((P ++ (nm, L) :: Q).map Prod.fst).Disjoint
            (genNames nm ((⌊L / m⌋).toNat)
              ++ todo.flatMap (fun q => genNames q.1 ((⌊q.2 / m⌋).toNat))) := by
          apply List.disjoint_of_nodup_append
          rw [List.flatMap_cons] at h2
          simpa [List.append_assoc] using h2
        constructor
        · apply meshFold_preserves_find? m nm _ todo _
            (fun q2 hq2m he => hnmtodo (he ▸ List.mem_map.mpr ⟨q2, hq2m, rfl⟩))
          exact find?_pairs_of_mem _ ((nm, L).1, (nm, L).2
              / (((⌊(nm, L).2 / m⌋).toNat : ℚ) + 1))
            (List.mem_append_right _ (List.mem_cons_self _ _)) hnd1
        · intro i hi
          have hname : ((nm, L).1 ++ "_" ++ toString ((⌊(nm, L).2 / m⌋).toNat - i))
              ∈ genNames nm ((⌊L / m⌋).toNat) :=
            List.mem_map.mpr ⟨i, List.mem_range.mpr hi, rfl⟩
          have hfresh : ∀ q2 ∈ todo,
              ((nm, L).1 ++ "_" ++ toString ((⌊(nm, L).2 / m⌋).toNat - i)) ≠ q2.1 := by
            intro q2 hq2m he
            have hq2cur : q2.1 ∈ (P ++ (nm, L) :: Q).map Prod.fst :=
              List.mem_map.mpr ⟨q2, h1 q2 (List.mem_cons_of_mem _ hq2m), rfl⟩
            exact hdisj hq2cur (he ▸ List.mem_append_left _ hname)
          apply meshFold_preserves_find? m _ _ todo _ hfresh
          apply find?_pairs_of_mem _ ((nm, L).1 ++ "_"
              ++ toString ((⌊(nm, L).2 / m⌋).toNat - i),
              (nm, L).2 / (((⌊(nm, L).2 / m⌋).toNat : ℚ) + 1)) _ hnd1
          exact List.mem_append_right _ (List.mem_cons_of_mem _
            (List.mem_append_right _ (List.mem_map.mpr ⟨i, List.mem_range.mpr hi, rfl⟩)))
      · exact ihf q1 htl

/-- C8: meshnet with no maximum pipe length returns the network unchanged; with
a threshold strictly greater than every pipe length it is also a no-op;
otherwise, under distinctness of the pipe names and of the generated split
names, every pipe of length L exceeding the threshold m is divided into
k + 1 = floor(L / m) + 1 equal segments of length L / (k + 1) — the original
pipe keeps its name and each new segment is named name_j for j = 1..k — the
node count grows by exactly the sum of the k over the long pipes, and the
total pipe length is conserved. -/
theorem meshnet_subdivision (net : MeshNetwork) (m : ℚ)
    (hnodup : (net.pipes.map Prod.fst
      ++ (net.pipes.filter (fun p => m < p.2)).flatMap
        (fun q => genNames q.1 ((⌊q.2 / m⌋).toNat))).Nodup) :
    meshnet net none = net
    ∧ ((∀ p ∈ net.pipes, p.2 < m) → meshnet net (some m) = net)
    ∧ (meshnet net (some m)).numNodes
        = net.numNodes
          + ((net.pipes.filter (fun p => m < p.2)).map
              (fun q => (⌊q.2 / m⌋).toNat)).sum
    ∧ ((meshnet net (some m)).pipes.map Prod.snd).sum
        = (net.pipes.map Prod.snd).sum
    ∧ ∀ q ∈ net.pipes, m < q.2 →
        (meshnet net (some m)).pipes.find? (fun p => p.1 = q.1)
          = some (q.1, q.2 / (((⌊q.2 / m⌋).toNat : ℚ) + 1))
        ∧ ∀ i < (⌊q.2 / m⌋).toNat,
            (meshnet net (some m)).pipes.find?
                (fun p => p.1 = q.1 ++ "_" ++ toString ((⌊q.2 / m⌋).toNat - i))
              = some (q.1 ++ "_" ++ toString ((⌊q.2 / m⌋).toNat - i),
                  q.2 / (((⌊q.2 / m⌋).toNat : ℚ) + 1)) := by
  by_cases hemp : (net.pipes.filter (fun p => m < p.2)).isEmpty = true
  · have hnil : net.pipes.filter (fun p => m < p.2) = [] :=
      List.isEmpty_iff.mp hemp
    have hmesh : meshnet net (some m) = net := by
      rw [meshnet]
      rw [if_pos hemp]
    refine ⟨rfl, fun _ => hmesh, ?_, by rw [hmesh], ?_⟩
    · rw [hmesh, hnil]
      rfl
    · intro q hq hlong
      have : q ∈ net.pipes.filter (fun p => m < p.2) :=
        List.mem_filter.mpr ⟨hq, by simpa using hlong⟩
      rw [hnil] at this
      cases this
  · have hmesh : meshnet net (some m)
        = (net.pipes.filter (fun p => m < p.2)).foldl (meshStep m) net := by
      rw [meshnet]
      rw [if_neg hemp]
    have hsub : ((net.pipes.filter (fun p => m < p.2)).map Prod.fst).Nodup :=
      ((List.filter_sublist net.pipes).map Prod.fst).nodup hnodup.of_append_left
    obtain ⟨hn, hs, hf⟩ := meshFold_spec m (net.pipes.filter (fun p => m < p.2))
      net (fun q hq => List.mem_of_mem_filter hq) hnodup hsub
    refine ⟨rfl, ?_, ?_, ?_, ?_⟩
    · intro hall
      exfalso
      apply hemp
      rw [List.isEmpty_iff, List.filter_eq_nil_iff]
      intro p hp
      simpa using not_lt_of_gt (hall p hp)
    · rw [hmesh]
      exact hn
    · rw [hmesh]
      exact hs
    · intro q hq hlong
      rw [hmesh]
      exact hf q (List.mem_filter.mpr ⟨hq, by simpa using hlong⟩)

/-- Witness for C8 at the two-pipe network with threshold 2: no-op with none;
pipe a of length 5 splits into three segments of length 5/3 named a, a_2 and
a_1; the node count goes from 4 to 6; the total pipe length stays 7. -/
theorem meshnet_subdivision_witness :
    meshnet netC8 none = netC8
    ∧ (meshnet netC8 (some 2)).numNodes = 6
    ∧ ((meshnet netC8 (some 2)).pipes.map Prod.snd).sum = 7
    ∧ (meshnet netC8 (some 2)).pipes.find? (fun p => p.1 = "a")
        = some ("a", 5 / 3)
    ∧ (meshnet netC8 (some 2)).pipes.find? (fun p => p.1 = "a_2")
        = some ("a_2", 5 / 3)
    ∧ (meshnet netC8 (some 2)).pipes.find? (fun p => p.1 = "a_1")
        = some ("a_1", 5 / 3) := by
  have hfilter : netC8.pipes.filter (fun p => (2 : ℚ) < p.2) = [("a", (5 : ℚ))] := by
    norm_num [netC8, List.filter]
  have hnodup : (netC8.pipes.map Prod.fst
      ++ (netC8.pipes.filter (fun p => (2 : ℚ) < p.2)).flatMap
        (fun q => genNames q.1 ((⌊q.2 / 2⌋).toNat))).Nodup := by
    rw [hfilter]
    norm_num [List.flatMap_cons, List.flatMap_nil]
    decide
  have h := meshnet_subdivision netC8 2 hnodup
  have ha := h.2.2.2.2 ("a", (5 : ℚ)) (by norm_num [netC8]) (by norm_num)
  have ha1 := ha.1
  have ha20 := ha.2 0 (by norm_num)
  have ha21 := ha.2 1 (by norm_num)
  norm_num [Int.toNat_ofNat] at ha1 ha20 ha21
  have htn : (Int.toNat 2) = 2 := rfl
  rw [htn] at ha1 ha20 ha21
  norm_num at ha1 ha20 ha21
  have hs2 : ("a" ++ "_" ++ toString (2 : ℕ)) = "a_2" := by decide
  have hs1 : ("a" ++ "_" ++ toString (1 : ℕ)) = "a_1" := by decide
  rw [hs2] at ha20
  rw [hs1] at ha21
  have hnum := h.2.2.1
  rw [hfilter] at hnum
  norm_num [netC8] at hnum
  have hsum := h.2.2.2.1
  norm_num [netC8] at hsum
  exact ⟨h.1, hnum, hsum, ha1, ha20, ha21⟩

end WNTRThermal
